import Mathlib

/-!
# olricdb: the external HTTP handlers (`external.go`)

A shallow embedding of the handlers of `external.go` together with the parts of
the Go standard library they call (`path.Join`, `path.Clean`, `net/url` query
handling, the head of `time.ParseDuration`).  Go strings are byte sequences.
-/

namespace Olricdb

/-! ## Go strings -/

/-- A byte. -/
abbrev Byte := Fin 256

/-- A Go string: an immutable sequence of bytes. -/
abbrev GoString := List Byte

/-- The bytes of an ASCII literal. -/
def ascii (s : String) : GoString := s.data.map (fun c => Fin.ofNat c.toNat)

/-- The byte `/`. -/
def slash : Byte := 47

/-- The byte `.`. -/
def dot : Byte := 46

deriving instance DecidableEq for Except

/-! ## `path.Clean` and `path.Join` (Go standard library) -/

/-- The backtracking loop of `path.Clean` on a `..` element, started after the first
`out.w--`: `for out.w > dotdot && out.index(out.w) != '/' { out.w-- }`. -/
def backtrackTo (buf : GoString) (dotdot : Nat) : Nat → Nat
  | 0 => 0
  | w + 1 =>
    if w + 1 > dotdot ∧ buf.getD (w + 1) 0 ≠ slash then backtrackTo buf dotdot w else w + 1

/-- The output buffer after a `..` element removed the last element written. -/
def backtrack (out : GoString) (dotdot : Nat) : GoString :=
  out.take (backtrackTo out dotdot (out.length - 1))

/-- The main loop `for r < n` of `path.Clean`.  `rest` is `path[r:]`, `out` is the
output written so far (`buf[:w]`), `dotdot` is the index where `..` must stop.
Every iteration consumes at least one byte of `rest`. -/
def cleanLoop (rooted : Bool) : Nat → GoString → GoString → Nat → GoString
  | 0, _, out, _ => out
  | fuel + 1, rest, out, dotdot =>
    match rest with
    | [] => out
    | c :: t =>
      if c = slash then
        -- empty path element
        cleanLoop rooted fuel t out dotdot
      else if c = dot ∧ (t = [] ∨ t.head? = some slash) then
        -- . element
        cleanLoop rooted fuel t out dotdot
      else if c = dot ∧ t.head? = some dot ∧ (t.tail = [] ∨ t.tail.head? = some slash) then
        -- .. element: remove to last /
        if out.length > dotdot then
          cleanLoop rooted fuel t.tail (backtrack out dotdot) dotdot
        else if !rooted then
          let out1 := if out.length > 0 then out ++ [slash] else out
          let out2 := out1 ++ [dot, dot]
          cleanLoop rooted fuel t.tail out2 out2.length
        else
          cleanLoop rooted fuel t.tail out dotdot
      else
        -- real path element: add slash if needed, copy element
        let out1 :=
          if (rooted ∧ out.length ≠ 1) ∨ (¬ rooted ∧ out.length ≠ 0) then out ++ [slash] else out
        cleanLoop rooted fuel (rest.dropWhile (fun b => b ≠ slash))
          (out1 ++ rest.takeWhile (fun b => b ≠ slash)) dotdot

/-- Go's `path.Clean`. -/
def Clean (path : GoString) : GoString :=
  match path with
  | [] => [dot]
  | c :: t =>
    let rooted : Bool := c = slash
    let out :=
      if rooted then cleanLoop rooted (path.length + 1) t [slash] 1
      else cleanLoop rooted (path.length + 1) path [] 0
    if out.length = 0 then [dot] else out

/-- The buffer loop of `path.Join`: elements are joined with `/`, starting at the first
non-empty one. -/
def joinBuf : GoString → List GoString → GoString
  | buf, [] => buf
  | buf, e :: es =>
    if buf.length > 0 ∨ e ≠ [] then
      joinBuf ((if buf.length > 0 then buf ++ [slash] else buf) ++ e) es
    else joinBuf buf es

/-- Go's `path.Join`. -/
def Join (elem : List GoString) : GoString :=
  if (elem.map List.length).sum = 0 then [] else Clean (joinBuf [] elem)

/-! ## `net/url`: query escaping, `Values`, `URL` (Go standard library) -/

/-- The function `shouldEscape(c, encodeQueryComponent)`: everything but the unreserved
characters (alphanumerics and `-`, `_`, `.`, `~`) is escaped in a query component. -/
def shouldEscape (c : Byte) : Bool :=
  if (65 ≤ c.val ∧ c.val ≤ 90) ∨ (97 ≤ c.val ∧ c.val ≤ 122) ∨ (48 ≤ c.val ∧ c.val ≤ 57) then false
  else if c.val = 45 ∨ c.val = 95 ∨ c.val = 46 ∨ c.val = 126 then false
  else true

/-- A byte that `QueryEscape` can emit: unreserved, `%` or `+`. -/
def escapedByte (b : Byte) : Bool := !shouldEscape b || b.val = 37 || b.val = 43

/-- The digit `"0123456789ABCDEF"[n]`. -/
def upperhex (n : Nat) : Byte :=
  if n < 10 then Fin.ofNat (48 + n) else Fin.ofNat (55 + n)

/-- The function `ishex`. -/
def ishex (c : Byte) : Bool :=
  (48 ≤ c.val ∧ c.val ≤ 57) ∨ (97 ≤ c.val ∧ c.val ≤ 102) ∨ (65 ≤ c.val ∧ c.val ≤ 70)

/-- The function `unhex`. -/
def unhex (c : Byte) : Nat :=
  if 48 ≤ c.val ∧ c.val ≤ 57 then c.val - 48
  else if 97 ≤ c.val ∧ c.val ≤ 102 then c.val - 97 + 10
  else if 65 ≤ c.val ∧ c.val ≤ 70 then c.val - 65 + 10
  else 0

/-- Go's `url.QueryEscape`: a space becomes `+`, every other byte that must be
escaped becomes `%XX`. -/
def QueryEscape : GoString → GoString
  | [] => []
  | c :: s =>
    if c.val = 32 then (43 : Byte) :: QueryEscape s
    else if shouldEscape c then
      (37 : Byte) :: upperhex (c.val / 16) :: upperhex (c.val % 16) :: QueryEscape s
    else c :: QueryEscape s

/-- Error values.  `ErrKeyNotFound` and `ErrNoSuchLock` are the sentinel values the
handlers compare against.  `AlreadyLocked` and `CodecError` are kinds named by the
error taxonomy of the specification; the handlers do not mention them.  `escape` is
`url.EscapeError`, `duration` is the error `time: invalid duration` of
`time.ParseDuration`, `other` is any other error value, identified by its message. -/
inductive Err where
  | ErrKeyNotFound
  | ErrNoSuchLock
  | AlreadyLocked
  | CodecError
  | escape (s : GoString)
  | duration (orig : GoString)
  | other (msg : GoString)
  deriving DecidableEq, Repr

/-- Go's `url.QueryUnescape`: `%XX` becomes the byte, `+` a space; a `%` not followed by
two hex digits is an `EscapeError` carrying at most three bytes from the `%`. -/
def QueryUnescape : GoString → Except Err GoString
  | [] => .ok []
  | c :: s =>
    if c.val = 37 then
      match s with
      | a :: b :: s2 =>
        if ishex a ∧ ishex b then
          match QueryUnescape s2 with
          | .ok t => .ok (Fin.ofNat (unhex a * 16 + unhex b) :: t)
          | .error e => .error e
        else .error (.escape ((c :: s).take 3))
      | _ => .error (.escape ((c :: s).take 3))
    else
      match QueryUnescape s with
      | .ok t => .ok ((if c.val = 43 then (32 : Byte) else c) :: t)
      | .error e => .error e

/-- Go's `url.Values`, a `map[string][]string`, as an association list with distinct
keys. -/
abbrev Values := List (GoString × List GoString)

/-- The map read `v[key]` (nil when absent). -/
def Values.lookup (v : Values) (key : GoString) : List GoString :=
  match v with
  | [] => []
  | (k, vs) :: m => if k = key then vs else Values.lookup m key

/-- The map write `v[key] = vs`. -/
def Values.store (v : Values) (key : GoString) (vs : List GoString) : Values :=
  match v with
  | [] => [(key, vs)]
  | (k, ws) :: m => if k = key then (k, vs) :: m else (k, ws) :: Values.store m key vs

/-- The method `Values.Get`: the first value of `key`, or the empty string. -/
def Values.Get (v : Values) (key : GoString) : GoString :=
  match v.lookup key with
  | [] => []
  | x :: _ => x

/-- The method `Values.Set`: `v[key] = []string{value}`. -/
def Values.Set (v : Values) (key value : GoString) : Values :=
  v.store key [value]

/-- The inner loop of `Values.Encode` over the values of one key. -/
def encodeValues (keyEscaped : GoString) : GoString → List GoString → GoString
  | buf, [] => buf
  | buf, x :: xs =>
    encodeValues keyEscaped
      ((if buf.length > 0 then buf ++ [(38 : Byte)] else buf) ++ keyEscaped ++ [(61 : Byte)]
        ++ QueryEscape x) xs

/-- The outer loop of `Values.Encode` over the sorted keys. -/
def encodeKeys (v : Values) : GoString → List GoString → GoString
  | buf, [] => buf
  | buf, k :: ks => encodeKeys v (encodeValues (QueryEscape k) buf (v.lookup k)) ks

/-- The method `Values.Encode`: `key=value` pairs, escaped, joined by `&`, sorted by
key. -/
def Values.Encode (v : Values) : GoString :=
  encodeKeys v [] ((v.map Prod.fst).insertionSort (fun a b => a ≤ b))

/-- The function `parseQuery` of the Go releases of 2018, the year of `external.go`:
the pair separators are `&` and `;`, and a segment whose key or value does not
unescape is skipped.  `fuel` bounds the number of segments; every iteration
consumes at least one byte of a non-empty `query`. -/
def parseQuery : Nat → Values → GoString → Values
  | 0, m, _ => m
  | fuel + 1, m, query =>
    if query = [] then m
    else
      let isSep : Byte → Bool := fun b => b.val = 38 ∨ b.val = 59
      let key := query.takeWhile (fun b => !isSep b)
      let query := (query.dropWhile (fun b => !isSep b)).tail
      if key = [] then parseQuery fuel m query
      else
        let value := (key.dropWhile (fun b => b.val ≠ 61)).tail
        let key := key.takeWhile (fun b => b.val ≠ 61)
        match QueryUnescape key with
        | .error _ => parseQuery fuel m query
        | .ok key =>
          match QueryUnescape value with
          | .error _ => parseQuery fuel m query
          | .ok value => parseQuery fuel (m.store key (m.lookup key ++ [value])) query

/-- Go's `url.URL`, the fields the handlers use. -/
structure URL where
  Scheme : GoString
  Host : GoString
  Path : GoString
  RawQuery : GoString
  deriving DecidableEq, Repr

/-- The method `URL.Query`: `ParseQuery(u.RawQuery)` with the error dropped. -/
def URL.Query (u : URL) : Values :=
  parseQuery (u.RawQuery.length + 1) [] u.RawQuery

/-! ## `time.ParseDuration` (Go standard library) -/

/-- A `time.Duration`: a signed count of nanoseconds. -/
abbrev Duration := Int

/-- The head of Go's `time.ParseDuration`: the optional sign is consumed, then `"0"` is
the zero duration and the empty string is an error.  The loop over the
`number unit` groups that follows (it computes in floating point) and the final
sign and range check are the parameter `units`, applied to the sign and the rest. -/
def ParseDuration (units : Bool → GoString → Except Err Duration) (s : GoString) :
    Except Err Duration :=
  let orig := s
  let neg : Bool := match s with
    | c :: _ => c.val = 45
    | [] => false
  let s := match s with
    | c :: t => if c.val = 45 ∨ c.val = 43 then t else s
    | [] => s
  if s = ascii "0" then .ok 0
  else if s = [] then .error (.duration orig)
  else units neg s

/-! ## The collaborators of the handlers -/

/-- A stored value (a Go `interface{}`): its dynamic type, called its shape, and its
content. -/
structure Value where
  shape : Nat
  data : GoString
  deriving DecidableEq, Repr

/-- A cluster member (`host`): address and port. -/
structure Host where
  Name : GoString
  Port : Nat
  deriving DecidableEq, Repr

/-- A `DMap` handle as returned by `h.db.NewDMap(name)`. -/
structure DMap where
  name : GoString
  deriving DecidableEq, Repr

/-- Modelled from the spec: `NewDMap` is not part of `external.go`.  A DMap is a named
logical keyspace, created implicitly on first reference, with no creation step. -/
def NewDMap (name : GoString) : DMap := ⟨name⟩

/-- The `httprouter.Params` of a request: key/value pairs of the matched route. -/
abbrev Params := List (GoString × GoString)

/-- The method `Params.ByName`: the value of the first pair whose key matches, or the
empty string. -/
def Params.ByName (ps : Params) (name : GoString) : GoString :=
  match ps with
  | [] => []
  | (k, v) :: rest => if k = name then v else Params.ByName rest name

/-- The inbound `http.Request`: its URL and its body. -/
structure Request where
  URL : URL
  Body : GoString
  deriving DecidableEq, Repr

/-- The `http.ResponseWriter` of a request: `writeErr` is the error its `Write` returns
(for instance after the client went away), if any. -/
structure ResponseWriter where
  writeErr : Option Err
  deriving DecidableEq, Repr

/-- Modelled from the spec: the value codec registry is not part of `external.go`.  It
holds the value shapes registered so far, in the order of their registration. -/
abbrev Registry := List Nat

/-- The calls a handler makes to its collaborators, in the order it makes them. -/
inductive Call where
  | locateKey (name key : GoString)
  | doRequest (method : GoString) (target : URL) (body : GoString)
  | decode (body : GoString)
  | parseDuration (s : GoString)
  | registerValueType (value : Value)
  | putKeyVal (hkey : Nat) (name : GoString) (value : Value) (timeout : Duration)
  | get (dm : DMap) (key : GoString)
  | encode (value : Value)
  | delete (dm : DMap) (key : GoString)
  | lockWithTimeout (dm : DMap) (key : GoString) (timeout : Duration)
  | unlock (dm : DMap) (key : GoString)
  | destroy (dm : DMap)
  | returnErr (err : Err) (status : Nat)
  deriving DecidableEq, Repr

/-- The node while it serves requests: the database `db` (partition store, lock leases
and whatever else the collaborators keep), the value codec registry, and the calls
made so far. -/
structure World (σ : Type) where
  db : σ
  registry : Registry
  trace : List Call

/-- The transport `h *httpTransport` with its database `h.db`.  The functions and
constants that `external.go` uses but does not define are fields.  The operations
on the database read and update its state `σ`; `locateKey`, the ownership lookup,
only reads it.  `registerValueType` is the write to the value codec registry.
`gobWire` is the wire format of the gob codec, `durationUnits` the loop of
`time.ParseDuration` after its head. -/
structure Transport (σ : Type) where
  scheme : GoString
  this : Host
  hostCmp : Host → Host → Bool
  hostString : Host → GoString
  printHKey : Nat → GoString
  nilTimeout : Duration
  locateKey : GoString → GoString → σ → Except Err (Host × Nat)
  doRequest : GoString → URL → GoString → σ → Option Err × σ
  putKeyVal : Nat → GoString → Value → Duration → σ → Option Err × σ
  dmGet : DMap → GoString → σ → Except Err Value × σ
  dmDelete : DMap → GoString → σ → Option Err × σ
  dmLockWithTimeout : DMap → GoString → Duration → σ → Option Err × σ
  dmUnlock : DMap → GoString → σ → Option Err × σ
  dmDestroy : DMap → σ → Option Err × σ
  registerValueType : Value → Registry → Registry
  gobWire : GoString → Option Value
  durationUnits : Bool → GoString → Except Err Duration

/-- The constant `http.StatusNotFound`. -/
def StatusNotFound : Nat := 404

/-- The constant `http.StatusInternalServerError`. -/
def StatusInternalServerError : Nat := 500

/-- The constant `http.MethodPost`. -/
def MethodPost : GoString := ascii "POST"

variable {σ : Type}

/-- Append a call to the trace. -/
def World.log (s : World σ) (c : Call) : World σ :=
  { s with trace := s.trace ++ [c] }

/-- The call `h.returnErr(w, err, status)`: the handler answers the request with
`err` and the HTTP status `status`. -/
def returnErr (err : Err) (status : Nat) (s : World σ) : World σ :=
  s.log (.returnErr err status)

/-- Modelled from the spec: the gob codec is not part of `external.go`.  Decoding a
body that is no encoding of a value, or one of an unregistered shape, fails with
a codec error. -/
def gobDecode (h : Transport σ) (reg : Registry) (body : GoString) : Except Err Value :=
  match h.gobWire body with
  | none => .error .CodecError
  | some v => if v.shape ∈ reg then .ok v else .error .CodecError

/-- Modelled from the spec: the gob codec is not part of `external.go`.  Encoding a
value of an unregistered shape fails with a codec error; otherwise the encoding
is written to `w`, whose `Write` may fail. -/
def gobEncode (w : ResponseWriter) (reg : Registry) (value : Value) : Option Err :=
  if value.shape ∈ reg then w.writeErr else some .CodecError

/-! ## The handlers of `external.go` -/

/-- The handler `handleExGet`. -/
def handleExGet (h : Transport σ) (w : ResponseWriter) (_r : Request) (ps : Params)
    (s : World σ) : World σ :=
  let name := ps.ByName (ascii "name")
  let key := ps.ByName (ascii "key")
  let dm := NewDMap name
  let res := h.dmGet dm key s.db
  let s := { s with db := res.2 }.log (.get dm key)
  match res.1 with
  | .error err =>
    if err = Err.ErrKeyNotFound then returnErr err StatusNotFound s
    else returnErr err StatusInternalServerError s
  | .ok value =>
    let s := s.log (.encode value)
    match gobEncode w s.registry value with
    | some err => returnErr err StatusInternalServerError s
    | none => s

/-- The redirect target that `handleExPut` builds for a key owned by another node. -/
def putTarget (h : Transport σ) (r : Request) (name : GoString) (owner : Host) (hkey : Nat) :
    URL :=
  let target : URL :=
    { Scheme := h.scheme
      Host := h.hostString owner
      Path := Join [ascii "/put/", name, h.printHKey hkey]
      RawQuery := [] }
  let rtimeout := r.URL.Query.Get (ascii "t")
  if rtimeout ≠ [] then
    let q := target.Query
    let q := q.Set (ascii "t") rtimeout
    { target with RawQuery := q.Encode }
  else target

/-- The handler `handleExPut`. -/
def handleExPut (h : Transport σ) (_w : ResponseWriter) (r : Request) (ps : Params)
    (s : World σ) : World σ :=
  let name := ps.ByName (ascii "name")
  let key := ps.ByName (ascii "key")
  let s := s.log (.locateKey name key)
  match h.locateKey name key s.db with
  | .error err => returnErr err StatusInternalServerError s
  | .ok (owner, hkey) =>
    if !h.hostCmp owner h.this then
      -- Redirect this to the its owner.
      let target := putTarget h r name owner hkey
      let res := h.doRequest MethodPost target r.Body s.db
      let s := { s with db := res.2 }.log (.doRequest MethodPost target r.Body)
      match res.1 with
      | some err => returnErr err StatusInternalServerError s
      | none => s
    else
      let s := s.log (.decode r.Body)
      match gobDecode h s.registry r.Body with
      | .error err => returnErr err StatusInternalServerError s
      | .ok value =>
        let rtimeout := r.URL.Query.Get (ascii "t")
        let parsed : Except Err Duration × World σ :=
          if rtimeout ≠ [] then
            (ParseDuration h.durationUnits rtimeout, s.log (.parseDuration rtimeout))
          else (.ok h.nilTimeout, s)
        match parsed with
        | (.error err, s) => returnErr err StatusInternalServerError s
        | (.ok timeout, s) =>
          let s := { s with registry := h.registerValueType value s.registry }.log
            (.registerValueType value)
          let res := h.putKeyVal hkey name value timeout s.db
          let s := { s with db := res.2 }.log (.putKeyVal hkey name value timeout)
          match res.1 with
          | some err => returnErr err StatusInternalServerError s
          | none => s

/-- The handler `handleExDelete`. -/
def handleExDelete (h : Transport σ) (_w : ResponseWriter) (_r : Request) (ps : Params)
    (s : World σ) : World σ :=
  let name := ps.ByName (ascii "name")
  let key := ps.ByName (ascii "key")
  let dm := NewDMap name
  let res := h.dmDelete dm key s.db
  let s := { s with db := res.2 }.log (.delete dm key)
  match res.1 with
  | some err => returnErr err StatusInternalServerError s
  | none => s

/-- The handler `handleExLockWithTimeout`. -/
def handleExLockWithTimeout (h : Transport σ) (_w : ResponseWriter) (r : Request)
    (ps : Params) (s : World σ) : World σ :=
  let name := ps.ByName (ascii "name")
  let key := ps.ByName (ascii "key")
  let rtimeout := r.URL.Query.Get (ascii "t")
  let s := s.log (.parseDuration rtimeout)
  match ParseDuration h.durationUnits rtimeout with
  | .error err => returnErr err StatusInternalServerError s
  | .ok timeout =>
    let dm := NewDMap name
    let res := h.dmLockWithTimeout dm key timeout s.db
    let s := { s with db := res.2 }.log (.lockWithTimeout dm key timeout)
    match res.1 with
    | some err =>
      if err = Err.ErrKeyNotFound then returnErr err StatusNotFound s
      else returnErr err StatusInternalServerError s
    | none => s

/-- The handler `handleExUnlock`. -/
def handleExUnlock (h : Transport σ) (_w : ResponseWriter) (_r : Request) (ps : Params)
    (s : World σ) : World σ :=
  let name := ps.ByName (ascii "name")
  let key := ps.ByName (ascii "key")
  let dm := NewDMap name
  let res := h.dmUnlock dm key s.db
  let s := { s with db := res.2 }.log (.unlock dm key)
  match res.1 with
  | some err =>
    if err = Err.ErrNoSuchLock then returnErr err StatusNotFound s
    else returnErr err StatusInternalServerError s
  | none => s

/-- The handler `handleExDestroy`. -/
def handleExDestroy (h : Transport σ) (_w : ResponseWriter) (_r : Request) (ps : Params)
    (s : World σ) : World σ :=
  let name := ps.ByName (ascii "name")
  let dm := NewDMap name
  let res := h.dmDestroy dm s.db
  let s := { s with db := res.2 }.log (.destroy dm)
  match res.1 with
  | some err => returnErr err StatusInternalServerError s
  | none => s

/-! ## Observations on a run of a handler -/

/-- The calls a handler made: the trace after the run without the trace before it. -/
def calls (before after : World σ) : List Call :=
  after.trace.drop before.trace.length

/-- The forwarded requests among a list of calls. -/
def Call.isDoRequest : Call → Bool
  | .doRequest _ _ _ => true
  | _ => false

/-- The body decodes among a list of calls. -/
def Call.isDecode : Call → Bool
  | .decode _ => true
  | _ => false

/-- The duration parses among a list of calls. -/
def Call.isParseDuration : Call → Bool
  | .parseDuration _ => true
  | _ => false

/-- The local store writes among a list of calls. -/
def Call.isPutKeyVal : Call → Bool
  | .putKeyVal _ _ _ _ => true
  | _ => false

/-- The registry writes among a list of calls. -/
def Call.isRegisterValueType : Call → Bool
  | .registerValueType _ => true
  | _ => false

/-- The lock acquisitions among a list of calls. -/
def Call.isLockWithTimeout : Call → Bool
  | .lockWithTimeout _ _ _ => true
  | _ => false

/-- The error answers of a run, as pairs of error and HTTP status. -/
def answers (before after : World σ) : List (Err × Nat) :=
  (calls before after).filterMap fun c =>
    match c with
    | .returnErr err status => some (err, status)
    | _ => none

/-- The timeout `handleExPut` hands to the store on its local branch: `nilTimeout`
unless the query parameter `t` is non-empty, then the parsed `t`. -/
def putTimeout (h : Transport σ) (r : Request) : Except Err Duration :=
  if r.URL.Query.Get (ascii "t") ≠ [] then
    ParseDuration h.durationUnits (r.URL.Query.Get (ascii "t"))
  else .ok h.nilTimeout

/-! ## A small cluster node to run the handlers on -/

/-- The database of the example node: stored entries by hash key, held locks and the
requests sent to other nodes. -/
structure DemoDb where
  entries : List (Nat × GoString × Value × Duration)
  locks : List (GoString × GoString)
  sent : List URL
  deriving DecidableEq, Repr

deriving instance DecidableEq for World

/-- The decimal digits of a number, as `strconv.FormatUint(n, 10)` prints them. -/
def decimal (n : Nat) : GoString := (Nat.toDigits 10 n).map (fun c => Fin.ofNat c.toNat)

/-- The example node itself. -/
def demoThis : Host := ⟨ascii "10.0.0.1", 3320⟩

/-- The other member of the example cluster. -/
def demoPeer : Host := ⟨ascii "10.0.0.2", 3320⟩

/-- The hash key of the example cluster. -/
def demoHash (name key : GoString) : Nat :=
  (name ++ key).foldl (fun acc b => acc * 31 + b.val) 7

/-- The value of a run of decimal digits. -/
def demoNumber (s : GoString) : Nat := s.foldl (fun acc b => acc * 10 + (b.val - 48)) 0

/-- The duration grammar of the example node: decimal digits followed by `s`. -/
def demoUnits (neg : Bool) (s : GoString) : Except Err Duration :=
  let ds := s.takeWhile (fun b => decide (48 ≤ b.val ∧ b.val ≤ 57))
  let unit := s.dropWhile (fun b => decide (48 ≤ b.val ∧ b.val ≤ 57))
  if ds ≠ [] ∧ unit = ascii "s" then
    .ok (if neg then -((demoNumber ds : Nat) * 1000000000 : Int)
      else ((demoNumber ds : Nat) * 1000000000 : Int))
  else .error (.duration s)

/-- The example node: keys with an even hash key are its own, the others belong to the
peer; its registry records every registration. -/
def demo : Transport DemoDb where
  scheme := ascii "http"
  this := demoThis
  hostCmp := fun a b => a = b
  hostString := fun a => a.Name ++ ascii ":" ++ decimal a.Port
  printHKey := decimal
  nilTimeout := 0
  locateKey := fun name key _ =>
    if name = [] then .error (.other (ascii "no partition"))
    else .ok (if demoHash name key % 2 = 0 then demoThis else demoPeer, demoHash name key)
  doRequest := fun _ target body db =>
    if body = [] then (some (.other (ascii "unexpected EOF")), db)
    else (none, { db with sent := db.sent ++ [target] })
  putKeyVal := fun hkey name value timeout db =>
    (none, { db with entries := (hkey, name, value, timeout) ::
      db.entries.filter (fun e => e.1 ≠ hkey) })
  dmGet := fun dm key db =>
    match db.entries.find? (fun e => e.1 = demoHash dm.name key) with
    | some e => (.ok e.2.2.1, db)
    | none => (.error .ErrKeyNotFound, db)
  dmDelete := fun dm key db =>
    (none, { db with entries := db.entries.filter (fun e => e.1 ≠ demoHash dm.name key) })
  dmLockWithTimeout := fun dm key _ db =>
    if key = [] then (some (.other (ascii "empty key")), db)
    else if (dm.name, key) ∈ db.locks then (some .AlreadyLocked, db)
    else (none, { db with locks := (dm.name, key) :: db.locks })
  dmUnlock := fun dm key db =>
    if (dm.name, key) ∈ db.locks then
      (none, { db with locks := db.locks.filter (fun l => l ≠ (dm.name, key)) })
    else (some .ErrNoSuchLock, db)
  dmDestroy := fun dm db =>
    (none, { db with entries := db.entries.filter (fun e => e.2.1 ≠ dm.name) })
  registerValueType := fun value reg => reg ++ [value.shape]
  gobWire := fun body =>
    match body with
    | [] => none
    | shape :: data => some ⟨shape.val, data⟩
  durationUnits := demoUnits

/-- The example node with a peer that is down at the first attempt and up from the
second: every attempt is recorded. -/
def demoFlaky : Transport DemoDb :=
  { demo with
    doRequest := fun _ target _ db =>
      (if db.sent = [] then some (.other (ascii "connection refused")) else none,
        { db with sent := db.sent ++ [target] }) }

/-- The example node with locks on stored keys only: a lock on a key that holds no
value fails with `ErrKeyNotFound`. -/
def demoStrict : Transport DemoDb :=
  { demo with
    dmLockWithTimeout := fun dm key timeout db =>
      if key = [] then (some (.other (ascii "empty key")), db)
      else if db.entries.all (fun e => e.1 ≠ demoHash dm.name key) then
        (some .ErrKeyNotFound, db)
      else demo.dmLockWithTimeout dm key timeout db }

/-- The example node at start: nothing stored, shapes 1 and 2 registered. -/
def demoWorld : World DemoDb :=
  { db := { entries := [], locks := [], sent := [] }, registry := [1, 2], trace := [] }

/-- The example node holding the lock on key `alice` of map `users`. -/
def demoLocked : World DemoDb :=
  { db := { entries := [], locks := [(ascii "users", ascii "alice")], sent := [] },
    registry := [1, 2], trace := [] }

/-- The example node storing a value under key `alice` of map `users`. -/
def demoStored : World DemoDb :=
  { db := { entries := [(demoHash (ascii "users") (ascii "alice"), ascii "users",
      ⟨1, ascii "V"⟩, 0)], locks := [], sent := [] },
    registry := [1, 2], trace := [] }

/-- The example node storing a value under key `alice` of map `users` and holding the
lock on it. -/
def demoStoredLocked : World DemoDb :=
  { db := { entries := [(demoHash (ascii "users") (ascii "alice"), ascii "users",
      ⟨1, ascii "V"⟩, 0)], locks := [(ascii "users", ascii "alice")], sent := [] },
    registry := [1, 2], trace := [] }

/-- A writer whose connection is open. -/
def demoWriter : ResponseWriter := ⟨none⟩

/-- A writer whose client went away. -/
def brokenWriter : ResponseWriter := ⟨some (.other (ascii "write: broken pipe"))⟩

/-- The route parameters of a request on map `name`, key `key`. -/
def demoParams (name key : String) : Params :=
  [(ascii "name", ascii name), (ascii "key", ascii key)]

/-- A request with the raw query `query` and the body `body`. -/
def demoRequest (query : String) (body : GoString) : Request :=
  { URL := { Scheme := [], Host := [], Path := [], RawQuery := ascii query }, Body := body }

/-! ## Lemmas on the library functions -/

theorem cleanLoop_nil (rooted : Bool) (fuel : Nat) (out : GoString) (dd : Nat) :
    cleanLoop rooted fuel [] out dd = out := by
  cases fuel <;> simp [cleanLoop]

theorem cleanLoop_slash (rooted : Bool) (fuel : Nat) (rest out : GoString) (dd : Nat) :
    cleanLoop rooted (fuel + 1) (slash :: rest) out dd = cleanLoop rooted fuel rest out dd := by
  simp [cleanLoop]

theorem takeWhile_seg (seg rest : GoString) (hs : slash ∉ seg)
    (hrest : rest = [] ∨ rest.head? = some slash) :
    (seg ++ rest).takeWhile (fun b => b ≠ slash) = seg := by
  induction seg with
  | nil =>
    rcases hrest with h | h
    · simp [h]
    · cases rest with
      | nil => simp
      | cons a t => simp at h; simp [h]
  | cons a t ih =>
    have ha : a ≠ slash := fun h => hs (by simp [h])
    have ht : slash ∉ t := fun h => hs (by simp [h])
    have ih2 := ih ht
    simp only [ne_eq, decide_not] at ih2
    simp [List.takeWhile, ha, ih2]

theorem dropWhile_seg (seg rest : GoString) (hs : slash ∉ seg)
    (hrest : rest = [] ∨ rest.head? = some slash) :
    (seg ++ rest).dropWhile (fun b => b ≠ slash) = rest := by
  induction seg with
  | nil =>
    rcases hrest with h | h
    · simp [h]
    · cases rest with
      | nil => simp
      | cons a t => simp at h; simp [h]
  | cons a t ih =>
    have ha : a ≠ slash := fun h => hs (by simp [h])
    have ht : slash ∉ t := fun h => hs (by simp [h])
    have ih2 := ih ht
    simp only [ne_eq, decide_not] at ih2
    simp [List.dropWhile, ha, ih2]

theorem cleanLoop_seg (rooted : Bool) (fuel : Nat) (seg rest out : GoString) (dd : Nat)
    (hne : seg ≠ []) (hs : slash ∉ seg) (hd : seg ≠ [dot]) (hdd : seg ≠ [dot, dot])
    (hrest : rest = [] ∨ rest.head? = some slash) :
    cleanLoop rooted (fuel + 1) (seg ++ rest) out dd =
      cleanLoop rooted fuel rest
        ((if (rooted ∧ out.length ≠ 1) ∨ (¬ rooted ∧ out.length ≠ 0) then out ++ [slash]
          else out) ++ seg) dd := by
  have htw := takeWhile_seg seg rest hs hrest
  have hdw := dropWhile_seg seg rest hs hrest
  cases seg with
  | nil => exact absurd rfl hne
  | cons c t =>
    have hc : c ≠ slash := fun h => hs (by simp [h])
    have h2 : ¬ (c = dot ∧ (t ++ rest = [] ∨ (t ++ rest).head? = some slash)) := by
      rintro ⟨hcd, h⟩
      cases t with
      | nil => exact hd (by simp [hcd])
      | cons d t2 =>
        have hdne : d ≠ slash := fun h => hs (by simp [h])
        simp [hdne] at h
    have h3 : ¬ (c = dot ∧ (t ++ rest).head? = some dot ∧
        ((t ++ rest).tail = [] ∨ (t ++ rest).tail.head? = some slash)) := by
      rintro ⟨hcd, h, h'⟩
      cases t with
      | nil => exact hd (by simp [hcd])
      | cons d t2 =>
        simp at h
        cases t2 with
        | nil => exact hdd (by simp [hcd, h])
        | cons e t3 =>
          have hene : e ≠ slash := fun h => hs (by simp [h])
          simp [hene] at h'
    rw [List.cons_append] at htw hdw ⊢
    rw [cleanLoop]
    simp only [hc, h2, h3, if_false, htw, hdw]

theorem digits_seg (printed : GoString) (hp : printed ≠ [])
    (hdig : ∀ b ∈ printed, 48 ≤ b.val ∧ b.val ≤ 57) :
    printed ≠ [] ∧ slash ∉ printed ∧ printed ≠ [dot] ∧ printed ≠ [dot, dot] := by
  refine ⟨hp, ?_, ?_, ?_⟩
  · intro h
    have := hdig slash h
    revert this
    decide
  · intro h
    have := hdig dot (by simp [h])
    revert this
    decide
  · intro h
    have := hdig dot (by simp [h])
    revert this
    decide

theorem ascii_put : ascii "/put/" = [slash, 112, 117, 116, slash] := by decide

theorem Join_put (name printed : GoString) (hn : name ≠ []) :
    Join [ascii "/put/", name, printed] =
      Clean (ascii "/put/" ++ [slash] ++ name ++ [slash] ++ printed) := by
  have h0 : ¬ ((List.map List.length [ascii "/put/", name, printed]).sum = 0) := by
    simp [ascii_put]
  simp only [Join, h0, if_false, joinBuf]
  simp [ascii_put, hn]

theorem Clean_put_seg (name printed : GoString)
    (hne : name ≠ []) (hs : slash ∉ name) (hd : name ≠ [dot]) (hdd : name ≠ [dot, dot])
    (hp : printed ≠ []) (hdig : ∀ b ∈ printed, 48 ≤ b.val ∧ b.val ≤ 57) :
    Clean (ascii "/put/" ++ [slash] ++ name ++ [slash] ++ printed) =
      ascii "/put/" ++ name ++ [slash] ++ printed := by
  obtain ⟨_, ps, pd, pdd⟩ := digits_seg printed hp hdig
  have hlen : ∃ k, (ascii "/put/" ++ [slash] ++ name ++ [slash] ++ printed).length + 1 = k + 6 :=
    ⟨name.length + printed.length + 2, by simp [ascii_put]; omega⟩
  obtain ⟨k, hk⟩ := hlen
  have hshape : ascii "/put/" ++ [slash] ++ name ++ [slash] ++ printed =
      slash :: (([112, 117, 116] : GoString) ++
        (slash :: slash :: (name ++ (slash :: (printed ++ []))))) := by
    simp [ascii_put]
  rw [hshape] at hk ⊢
  simp only [Clean, hk, decide_True, if_true]
  rw [cleanLoop_seg true (k + 5) [112, 117, 116]
    (slash :: slash :: (name ++ (slash :: (printed ++ [])))) _ _ (by simp) (by decide)
    (by decide) (by decide) (Or.inr rfl)]
  rw [cleanLoop_slash, cleanLoop_slash]
  rw [cleanLoop_seg true (k + 2) name (slash :: (printed ++ [])) _ _ hne hs hd hdd
    (Or.inr rfl)]
  rw [cleanLoop_slash]
  rw [cleanLoop_seg true k printed [] _ _ hp ps pd pdd (Or.inl rfl)]
  rw [cleanLoop_nil]
  simp [ascii_put]

theorem cleanLoop_dot (rooted : Bool) (fuel : Nat) (rest out : GoString) (dd : Nat) :
    cleanLoop rooted (fuel + 1) (dot :: slash :: rest) out dd =
      cleanLoop rooted fuel (slash :: rest) out dd := by
  have h : dot ≠ slash := by decide
  simp [cleanLoop, h]

theorem cleanLoop_dotdot (rooted : Bool) (fuel : Nat) (rest out : GoString) (dd : Nat)
    (hw : out.length > dd) :
    cleanLoop rooted (fuel + 1) (dot :: dot :: slash :: rest) out dd =
      cleanLoop rooted fuel (slash :: rest) (backtrack out dd) dd := by
  have h : dot ≠ slash := by decide
  simp [cleanLoop, h, hw]

theorem Clean_put_dotdot (printed : GoString)
    (hp : printed ≠ []) (hdig : ∀ b ∈ printed, 48 ≤ b.val ∧ b.val ≤ 57) :
    Clean (ascii "/put/" ++ [slash] ++ [dot, dot] ++ [slash] ++ printed) = slash :: printed := by
  obtain ⟨_, ps, pd, pdd⟩ := digits_seg printed hp hdig
  have hlen : ∃ k, (ascii "/put/" ++ [slash] ++ [dot, dot] ++ [slash] ++ printed).length + 1
      = k + 6 := ⟨printed.length + 4, by simp [ascii_put]⟩
  obtain ⟨k, hk⟩ := hlen
  have hshape : ascii "/put/" ++ [slash] ++ [dot, dot] ++ [slash] ++ printed =
      slash :: (([112, 117, 116] : GoString) ++
        (slash :: slash :: dot :: dot :: slash :: (printed ++ []))) := by
    simp [ascii_put]
  rw [hshape] at hk ⊢
  simp only [Clean, hk, decide_True, if_true]
  rw [cleanLoop_seg true (k + 5) [112, 117, 116]
    (slash :: slash :: dot :: dot :: slash :: (printed ++ [])) _ _ (by simp) (by decide)
    (by decide) (by decide) (Or.inr rfl)]
  rw [cleanLoop_slash, cleanLoop_slash]
  rw [cleanLoop_dotdot true (k + 2) _ _ _ (by decide)]
  rw [cleanLoop_slash]
  have hb : backtrack ((if (true = true ∧ ([slash] : GoString).length ≠ 1) ∨
      (¬ true = true ∧ ([slash] : GoString).length ≠ 0) then [slash] ++ [slash] else [slash])
        ++ [112, 117, 116]) 1 = [slash] := by decide
  rw [hb]
  rw [cleanLoop_seg true k printed [] _ _ hp ps pd pdd (Or.inl rfl)]
  rw [cleanLoop_nil]
  simp

theorem Clean_put_dot (printed : GoString)
    (hp : printed ≠ []) (hdig : ∀ b ∈ printed, 48 ≤ b.val ∧ b.val ≤ 57) :
    Clean (ascii "/put/" ++ [slash] ++ [dot] ++ [slash] ++ printed) =
      ascii "/put/" ++ printed := by
  obtain ⟨_, ps, pd, pdd⟩ := digits_seg printed hp hdig
  have hlen : ∃ k, (ascii "/put/" ++ [slash] ++ [dot] ++ [slash] ++ printed).length + 1
      = k + 6 := ⟨printed.length + 3, by simp [ascii_put]⟩
  obtain ⟨k, hk⟩ := hlen
  have hshape : ascii "/put/" ++ [slash] ++ [dot] ++ [slash] ++ printed =
      slash :: (([112, 117, 116] : GoString) ++
        (slash :: slash :: dot :: slash :: (printed ++ []))) := by
    simp [ascii_put]
  rw [hshape] at hk ⊢
  simp only [Clean, hk, decide_True, if_true]
  rw [cleanLoop_seg true (k + 5) [112, 117, 116]
    (slash :: slash :: dot :: slash :: (printed ++ [])) _ _ (by simp) (by decide)
    (by decide) (by decide) (Or.inr rfl)]
  rw [cleanLoop_slash, cleanLoop_slash, cleanLoop_dot, cleanLoop_slash]
  rw [cleanLoop_seg true k printed [] _ _ hp ps pd pdd (Or.inl rfl)]
  rw [cleanLoop_nil]
  simp [ascii_put]

set_option maxRecDepth 100000 in
theorem hex_roundtrip : ∀ c : Byte,
    ishex (upperhex (c.val / 16)) = true ∧ ishex (upperhex (c.val % 16)) = true ∧
    (Fin.ofNat (unhex (upperhex (c.val / 16)) * 16 + unhex (upperhex (c.val % 16))) : Byte) = c ∧
    escapedByte (upperhex (c.val / 16)) = true ∧ escapedByte (upperhex (c.val % 16)) = true := by
  decide

set_option maxRecDepth 100000 in
theorem plain_byte : ∀ c : Byte, shouldEscape c = false → c.val ≠ 37 ∧ c.val ≠ 43 := by
  decide

set_option maxRecDepth 100000 in
theorem escapedByte_not_sep : ∀ c : Byte, escapedByte c = true →
    c.val ≠ 38 ∧ c.val ≠ 59 ∧ c.val ≠ 61 := by
  decide

theorem QueryUnescape_plain (c : Byte) (s : GoString) (hc : c.val ≠ 37) :
    QueryUnescape (c :: s) =
      match QueryUnescape s with
      | .ok t => .ok ((if c.val = 43 then (32 : Byte) else c) :: t)
      | .error e => .error e := by
  rw [QueryUnescape.eq_def]
  simp only [hc, if_false]

theorem QueryUnescape_percent (a b : Byte) (s : GoString)
    (ha : ishex a = true) (hb : ishex b = true) :
    QueryUnescape ((37 : Byte) :: a :: b :: s) =
      match QueryUnescape s with
      | .ok t => .ok (Fin.ofNat (unhex a * 16 + unhex b) :: t)
      | .error e => .error e := by
  rw [QueryUnescape.eq_def]
  have h37 : ((37 : Byte).val = 37) := by decide
  simp only [h37, if_true, ha, hb, and_self]

theorem QueryUnescape_QueryEscape (s : GoString) : QueryUnescape (QueryEscape s) = .ok s := by
  induction s with
  | nil => rfl
  | cons c t ih =>
    unfold QueryEscape
    by_cases h32 : c.val = 32
    · have hc : c = 32 := Fin.ext h32
      simp only [h32, if_true]
      rw [QueryUnescape_plain _ _ (by decide), ih]
      have h43 : ((43 : Byte).val = 43) := by decide
      simp only [h43, if_true, hc]
    · simp only [h32, if_false]
      by_cases he : shouldEscape c = true
      · obtain ⟨h1, h2, h3, _, _⟩ := hex_roundtrip c
        simp only [he, if_true]
        rw [QueryUnescape_percent _ _ _ h1 h2, ih]
        simp only [h3]
      · have he2 : shouldEscape c = false := by simpa using he
        have hp := plain_byte c he2
        simp only [he2, Bool.false_eq_true, if_false]
        rw [QueryUnescape_plain _ _ hp.1, ih]
        simp [hp.2]

theorem QueryEscape_bytes (s : GoString) : ∀ b ∈ QueryEscape s, escapedByte b = true := by
  induction s with
  | nil => simp [QueryEscape]
  | cons c t ih =>
    unfold QueryEscape
    by_cases h32 : c.val = 32
    · simp only [h32, if_true]
      intro b hb
      rcases List.mem_cons.1 hb with rfl | hb
      · decide
      · exact ih b hb
    · simp only [h32, if_false]
      by_cases he : shouldEscape c = true
      · obtain ⟨_, _, _, h4, h5⟩ := hex_roundtrip c
        simp only [he, if_true]
        intro b hb
        simp only [List.mem_cons] at hb
        rcases hb with rfl | rfl | rfl | hb
        · decide
        · exact h4
        · exact h5
        · exact ih b hb
      · have he2 : shouldEscape c = false := by simpa using he
        simp only [he2, Bool.false_eq_true, if_false]
        intro b hb
        rcases List.mem_cons.1 hb with rfl | hb
        · simp [escapedByte, he2]
        · exact ih b hb

theorem ascii_t : ascii "t" = [116] := by decide

theorem parseQuery_nil (fuel : Nat) (m : Values) : parseQuery fuel m [] = m := by
  cases fuel <;> simp [parseQuery]

theorem Encode_single (s : GoString) :
    Values.Encode (Values.Set [] (ascii "t") s) = (116 : Byte) :: 61 :: QueryEscape s := by
  have h : QueryEscape [116] = [116] := by decide
  simp [Values.Encode, Values.Set, Values.store, encodeKeys, encodeValues, Values.lookup,
    ascii_t, h]

theorem parseQuery_single (fuel : Nat) (s : GoString) :
    parseQuery (fuel + 1) [] ((116 : Byte) :: 61 :: QueryEscape s) = [(ascii "t", [s])] := by
  have hns : ∀ b ∈ ((116 : Byte) :: 61 :: QueryEscape s),
      (!(decide (b.val = 38 ∨ b.val = 59))) = true := by
    intro b hb
    simp only [List.mem_cons] at hb
    rcases hb with rfl | rfl | hb
    · decide
    · decide
    · have := escapedByte_not_sep b (QueryEscape_bytes s b hb)
      simp [this.1, this.2.1]
  have htw : ((116 : Byte) :: 61 :: QueryEscape s).takeWhile
      (fun b => !(decide (b.val = 38 ∨ b.val = 59))) = (116 : Byte) :: 61 :: QueryEscape s :=
    List.takeWhile_eq_self_iff.2 hns
  have hdw : ((116 : Byte) :: 61 :: QueryEscape s).dropWhile
      (fun b => !(decide (b.val = 38 ∨ b.val = 59))) = [] :=
    List.dropWhile_eq_nil_iff.2 hns
  have hk : QueryUnescape [116] = .ok [116] := by decide
  rw [parseQuery]
  simp only [htw, hdw]
  have a1 : ¬ ((116 : Byte).val = 61) := by decide
  have a2 : (61 : Byte).val = 61 := by decide
  have h1 : ((116 : Byte) :: 61 :: QueryEscape s).takeWhile (fun b => decide (b.val ≠ 61))
      = [116] := by
    simp [List.takeWhile, a1, a2]
  have h2 : ((116 : Byte) :: 61 :: QueryEscape s).dropWhile (fun b => decide (b.val ≠ 61))
      = 61 :: QueryEscape s := by
    simp [List.dropWhile, a1, a2]
  simp only [h1, h2, List.tail_cons, hk, QueryUnescape_QueryEscape, parseQuery_nil]
  simp [Values.store, Values.lookup, ascii_t, parseQuery_nil]

/-! ## The paths through the handlers -/

theorem calls_append (s : World σ) (db : σ) (reg : Registry) (l : List Call) :
    calls s { db := db, registry := reg, trace := s.trace ++ l } = l := by
  simp [calls]

/-- The forwarding branch of `handleExPut`, as one equation. -/
theorem handleExPut_forward (h : Transport σ) (w : ResponseWriter) (r : Request) (ps : Params)
    (s : World σ) (owner : Host) (hkey : Nat)
    (hloc : h.locateKey (ps.ByName (ascii "name")) (ps.ByName (ascii "key")) s.db
      = .ok (owner, hkey))
    (hcmp : h.hostCmp owner h.this = false) :
    handleExPut h w r ps s =
      { db := (h.doRequest MethodPost (putTarget h r (ps.ByName (ascii "name")) owner hkey)
          r.Body s.db).2
        registry := s.registry
        trace := s.trace ++
          ([Call.locateKey (ps.ByName (ascii "name")) (ps.ByName (ascii "key")),
            Call.doRequest MethodPost (putTarget h r (ps.ByName (ascii "name")) owner hkey)
              r.Body] ++
            match (h.doRequest MethodPost (putTarget h r (ps.ByName (ascii "name")) owner hkey)
              r.Body s.db).1 with
            | some err => [Call.returnErr err StatusInternalServerError]
            | none => []) } := by
  simp only [handleExPut, World.log, hloc, hcmp, returnErr]
  cases (h.doRequest MethodPost (putTarget h r (ps.ByName (ascii "name")) owner hkey)
    r.Body s.db).1 <;> simp

/-- The local branch of `handleExPut` when the body does not decode. -/
theorem handleExPut_local_undecodable (h : Transport σ) (w : ResponseWriter) (r : Request)
    (ps : Params) (s : World σ) (owner : Host) (hkey : Nat) (err : Err)
    (hloc : h.locateKey (ps.ByName (ascii "name")) (ps.ByName (ascii "key")) s.db
      = .ok (owner, hkey))
    (hcmp : h.hostCmp owner h.this = true)
    (hdec : gobDecode h s.registry r.Body = .error err) :
    handleExPut h w r ps s =
      { db := s.db
        registry := s.registry
        trace := s.trace ++
          [Call.locateKey (ps.ByName (ascii "name")) (ps.ByName (ascii "key")),
            Call.decode r.Body, Call.returnErr err StatusInternalServerError] } := by
  simp [handleExPut, World.log, hloc, hcmp, returnErr, hdec]

/-- The local branch of `handleExPut` when the timeout does not parse. -/
theorem handleExPut_local_malformed (h : Transport σ) (w : ResponseWriter) (r : Request)
    (ps : Params) (s : World σ) (owner : Host) (hkey : Nat) (value : Value) (err : Err)
    (hloc : h.locateKey (ps.ByName (ascii "name")) (ps.ByName (ascii "key")) s.db
      = .ok (owner, hkey))
    (hcmp : h.hostCmp owner h.this = true)
    (hdec : gobDecode h s.registry r.Body = .ok value)
    (ht : r.URL.Query.Get (ascii "t") ≠ [])
    (hpar : ParseDuration h.durationUnits (r.URL.Query.Get (ascii "t")) = .error err) :
    handleExPut h w r ps s =
      { db := s.db
        registry := s.registry
        trace := s.trace ++
          [Call.locateKey (ps.ByName (ascii "name")) (ps.ByName (ascii "key")),
            Call.decode r.Body, Call.parseDuration (r.URL.Query.Get (ascii "t")),
            Call.returnErr err StatusInternalServerError] } := by
  simp [handleExPut, World.log, hloc, hcmp, returnErr, hdec, ht, hpar]

/-- The local branch of `handleExPut` when body and timeout are fine. -/
theorem handleExPut_local_stored (h : Transport σ) (w : ResponseWriter) (r : Request)
    (ps : Params) (s : World σ) (owner : Host) (hkey : Nat) (value : Value) (timeout : Duration)
    (hloc : h.locateKey (ps.ByName (ascii "name")) (ps.ByName (ascii "key")) s.db
      = .ok (owner, hkey))
    (hcmp : h.hostCmp owner h.this = true)
    (hdec : gobDecode h s.registry r.Body = .ok value)
    (hpar : putTimeout h r = .ok timeout) :
    handleExPut h w r ps s =
      { db := (h.putKeyVal hkey (ps.ByName (ascii "name")) value timeout s.db).2
        registry := h.registerValueType value s.registry
        trace := s.trace ++
          ([Call.locateKey (ps.ByName (ascii "name")) (ps.ByName (ascii "key")),
            Call.decode r.Body] ++
            (if r.URL.Query.Get (ascii "t") ≠ [] then
              [Call.parseDuration (r.URL.Query.Get (ascii "t"))] else []) ++
            [Call.registerValueType value,
              Call.putKeyVal hkey (ps.ByName (ascii "name")) value timeout] ++
            match (h.putKeyVal hkey (ps.ByName (ascii "name")) value timeout s.db).1 with
            | some err => [Call.returnErr err StatusInternalServerError]
            | none => []) } := by
  unfold putTimeout at hpar
  by_cases ht : r.URL.Query.Get (ascii "t") = []
  · simp only [ht, ne_eq, not_true_eq_false, if_false] at hpar
    have hn : h.nilTimeout = timeout := by injection hpar
    cases hres : (h.putKeyVal hkey (ps.ByName (ascii "name")) value timeout s.db).1 <;>
      simp [handleExPut, World.log, hloc, hcmp, returnErr, hdec, ht, hn, hres]
  · simp only [ht, ne_eq, not_false_eq_true, if_true] at hpar
    cases hres : (h.putKeyVal hkey (ps.ByName (ascii "name")) value timeout s.db).1 <;>
      simp [handleExPut, World.log, hloc, hcmp, returnErr, hdec, ht, hpar, hres]

theorem ParseDuration_empty (units : Bool → GoString → Except Err Duration) :
    ParseDuration units [] = .error (.duration []) := by
  have h : ¬ (([] : GoString) = ascii "0") := by decide
  simp [ParseDuration, h]

theorem Get_absent (v : Values) (key : GoString) (h : v.lookup key = []) : v.Get key = [] := by
  simp [Values.Get, h]

/-- The handler `handleExLockWithTimeout` when the timeout does not parse. -/
theorem handleExLockWithTimeout_malformed (h : Transport σ) (w : ResponseWriter) (r : Request)
    (ps : Params) (s : World σ) (err : Err)
    (hpar : ParseDuration h.durationUnits (r.URL.Query.Get (ascii "t")) = .error err) :
    handleExLockWithTimeout h w r ps s =
      { db := s.db
        registry := s.registry
        trace := s.trace ++
          [Call.parseDuration (r.URL.Query.Get (ascii "t")),
            Call.returnErr err StatusInternalServerError] } := by
  simp [handleExLockWithTimeout, World.log, returnErr, hpar]

/-- The handler `handleExLockWithTimeout` when the timeout parses. -/
theorem handleExLockWithTimeout_parsed (h : Transport σ) (w : ResponseWriter) (r : Request)
    (ps : Params) (s : World σ) (timeout : Duration)
    (hpar : ParseDuration h.durationUnits (r.URL.Query.Get (ascii "t")) = .ok timeout) :
    handleExLockWithTimeout h w r ps s =
      { db := (h.dmLockWithTimeout (NewDMap (ps.ByName (ascii "name")))
          (ps.ByName (ascii "key")) timeout s.db).2
        registry := s.registry
        trace := s.trace ++
          ([Call.parseDuration (r.URL.Query.Get (ascii "t")),
            Call.lockWithTimeout (NewDMap (ps.ByName (ascii "name"))) (ps.ByName (ascii "key"))
              timeout] ++
            match (h.dmLockWithTimeout (NewDMap (ps.ByName (ascii "name")))
              (ps.ByName (ascii "key")) timeout s.db).1 with
            | some err =>
              [Call.returnErr err
                (if err = Err.ErrKeyNotFound then StatusNotFound else StatusInternalServerError)]
            | none => []) } := by
  cases hres : (h.dmLockWithTimeout (NewDMap (ps.ByName (ascii "name")))
    (ps.ByName (ascii "key")) timeout s.db).1 with
  | none => simp [handleExLockWithTimeout, World.log, returnErr, hpar, hres]
  | some e =>
    by_cases he : e = Err.ErrKeyNotFound <;>
      simp [handleExLockWithTimeout, World.log, returnErr, hpar, hres, he]

/-- The handler `handleExGet`, as one equation. -/
theorem handleExGet_eq (h : Transport σ) (w : ResponseWriter) (r : Request) (ps : Params)
    (s : World σ) :
    handleExGet h w r ps s =
      { db := (h.dmGet (NewDMap (ps.ByName (ascii "name"))) (ps.ByName (ascii "key")) s.db).2
        registry := s.registry
        trace := s.trace ++
          ([Call.get (NewDMap (ps.ByName (ascii "name"))) (ps.ByName (ascii "key"))] ++
            match (h.dmGet (NewDMap (ps.ByName (ascii "name"))) (ps.ByName (ascii "key"))
              s.db).1 with
            | .error err =>
              [Call.returnErr err
                (if err = Err.ErrKeyNotFound then StatusNotFound else StatusInternalServerError)]
            | .ok value =>
              [Call.encode value] ++
                match gobEncode w s.registry value with
                | some err => [Call.returnErr err StatusInternalServerError]
                | none => []) } := by
  cases hres : (h.dmGet (NewDMap (ps.ByName (ascii "name"))) (ps.ByName (ascii "key"))
    s.db).1 with
  | error e =>
    by_cases he : e = Err.ErrKeyNotFound <;>
      simp [handleExGet, World.log, returnErr, hres, he]
  | ok v =>
    cases henc : gobEncode w s.registry v <;>
      simp [handleExGet, World.log, returnErr, hres, henc]

/-- The handler `handleExUnlock`, as one equation. -/
theorem handleExUnlock_eq (h : Transport σ) (w : ResponseWriter) (r : Request) (ps : Params)
    (s : World σ) :
    handleExUnlock h w r ps s =
      { db := (h.dmUnlock (NewDMap (ps.ByName (ascii "name"))) (ps.ByName (ascii "key")) s.db).2
        registry := s.registry
        trace := s.trace ++
          ([Call.unlock (NewDMap (ps.ByName (ascii "name"))) (ps.ByName (ascii "key"))] ++
            match (h.dmUnlock (NewDMap (ps.ByName (ascii "name"))) (ps.ByName (ascii "key"))
              s.db).1 with
            | some err =>
              [Call.returnErr err
                (if err = Err.ErrNoSuchLock then StatusNotFound else StatusInternalServerError)]
            | none => []) } := by
  cases hres : (h.dmUnlock (NewDMap (ps.ByName (ascii "name"))) (ps.ByName (ascii "key"))
    s.db).1 with
  | none => simp [handleExUnlock, World.log, returnErr, hres]
  | some e =>
    by_cases he : e = Err.ErrNoSuchLock <;>
      simp [handleExUnlock, World.log, returnErr, hres, he]

/-- The handler `handleExPut` when the owner of the key cannot be located. -/
theorem handleExPut_unlocated (h : Transport σ) (w : ResponseWriter) (r : Request)
    (ps : Params) (s : World σ) (err : Err)
    (hloc : h.locateKey (ps.ByName (ascii "name")) (ps.ByName (ascii "key")) s.db
      = .error err) :
    handleExPut h w r ps s =
      { db := s.db
        registry := s.registry
        trace := s.trace ++
          [Call.locateKey (ps.ByName (ascii "name")) (ps.ByName (ascii "key")),
            Call.returnErr err StatusInternalServerError] } := by
  simp [handleExPut, World.log, returnErr, hloc]

/-- The handler `handleExDelete`, as one equation. -/
theorem handleExDelete_eq (h : Transport σ) (w : ResponseWriter) (r : Request) (ps : Params)
    (s : World σ) :
    handleExDelete h w r ps s =
      { db := (h.dmDelete (NewDMap (ps.ByName (ascii "name"))) (ps.ByName (ascii "key")) s.db).2
        registry := s.registry
        trace := s.trace ++
          ([Call.delete (NewDMap (ps.ByName (ascii "name"))) (ps.ByName (ascii "key"))] ++
            match (h.dmDelete (NewDMap (ps.ByName (ascii "name"))) (ps.ByName (ascii "key"))
              s.db).1 with
            | some err => [Call.returnErr err StatusInternalServerError]
            | none => []) } := by
  cases hres : (h.dmDelete (NewDMap (ps.ByName (ascii "name"))) (ps.ByName (ascii "key"))
    s.db).1 <;> simp [handleExDelete, World.log, returnErr, hres]

/-- The handler `handleExDestroy`, as one equation. -/
theorem handleExDestroy_eq (h : Transport σ) (w : ResponseWriter) (r : Request) (ps : Params)
    (s : World σ) :
    handleExDestroy h w r ps s =
      { db := (h.dmDestroy (NewDMap (ps.ByName (ascii "name"))) s.db).2
        registry := s.registry
        trace := s.trace ++
          ([Call.destroy (NewDMap (ps.ByName (ascii "name")))] ++
            match (h.dmDestroy (NewDMap (ps.ByName (ascii "name"))) s.db).1 with
            | some err => [Call.returnErr err StatusInternalServerError]
            | none => []) } := by
  cases hres : (h.dmDestroy (NewDMap (ps.ByName (ascii "name"))) s.db).1 <;>
    simp [handleExDestroy, World.log, returnErr, hres]

/-! ## The properties of the handlers -/

theorem putTarget_fields (h : Transport σ) (r : Request) (name : GoString) (owner : Host)
    (hkey : Nat) :
    (putTarget h r name owner hkey).Scheme = h.scheme ∧
    (putTarget h r name owner hkey).Host = h.hostString owner ∧
    (putTarget h r name owner hkey).Path = Join [ascii "/put/", name, h.printHKey hkey] := by
  unfold putTarget
  by_cases ht : r.URL.Query.Get (ascii "t") = [] <;> simp [ht]

theorem putTarget_query (h : Transport σ) (r : Request) (name : GoString) (owner : Host)
    (hkey : Nat) (ht : r.URL.Query.Get (ascii "t") ≠ []) :
    (putTarget h r name owner hkey).RawQuery
      = (116 : Byte) :: 61 :: QueryEscape (r.URL.Query.Get (ascii "t")) := by
  have hq : URL.Query (URL.mk h.scheme (h.hostString owner)
      (Join [ascii "/put/", name, h.printHKey hkey]) []) = [] := by
    simp [URL.Query, parseQuery_nil]
  simp only [putTarget, ht, ne_eq, not_false_eq_true, if_true, hq, Encode_single]

theorem putTarget_no_query (h : Transport σ) (r : Request) (name : GoString) (owner : Host)
    (hkey : Nat) (ht : r.URL.Query.Get (ascii "t") = []) :
    (putTarget h r name owner hkey).RawQuery = [] := by
  simp [putTarget, ht]

/-- The calls of the forwarding branch of `handleExPut`. -/
theorem handleExPut_forward_calls (h : Transport σ) (w : ResponseWriter) (r : Request)
    (ps : Params) (s : World σ) (owner : Host) (hkey : Nat)
    (hloc : h.locateKey (ps.ByName (ascii "name")) (ps.ByName (ascii "key")) s.db
      = .ok (owner, hkey))
    (hcmp : h.hostCmp owner h.this = false) :
    calls s (handleExPut h w r ps s) =
      [Call.locateKey (ps.ByName (ascii "name")) (ps.ByName (ascii "key")),
        Call.doRequest MethodPost (putTarget h r (ps.ByName (ascii "name")) owner hkey)
          r.Body] ++
        match (h.doRequest MethodPost (putTarget h r (ps.ByName (ascii "name")) owner hkey)
          r.Body s.db).1 with
        | some err => [Call.returnErr err StatusInternalServerError]
        | none => [] := by
  rw [handleExPut_forward h w r ps s owner hkey hloc hcmp, calls_append]

/-- C1 as stated fails for the map name `..`: the Put for `..`/`alice` is forwarded on
the path `/234823312089`, which holds the printed hash key and no map name. -/
theorem handleExPut_forward_path_drops_map_name :
    demo.locateKey (ascii "..") (ascii "alice") demoWorld.db = .ok (demoPeer, 234823312089)
    ∧ demo.hostCmp demoPeer demo.this = false
    ∧ (calls demoWorld (handleExPut demo demoWriter (demoRequest "" (1 :: ascii "V"))
        (demoParams ".." "alice") demoWorld)).filter Call.isDoRequest =
      [Call.doRequest MethodPost
        ⟨ascii "http", ascii "10.0.0.2:3320", ascii "/234823312089", []⟩
        (1 :: ascii "V")] := by
  decide

/-- C1, as amended: a Put whose key is owned by another node is forwarded with one
POST, `doRequest` applied once to the database of the request, to `owner.String()`
on the path `path.Join("/put/", name, printHKey(hkey))`; for a map name that is a
plain segment and a hash key printed as decimal digits this path is
`/put/name/printHKey(hkey)`; the raw key does not enter the request: two requests
that agree on map name, owner and hash key are forwarded identically, whatever
their keys. -/
theorem handleExPut_forwards_by_hash_key (h : Transport σ) (w : ResponseWriter) (r : Request)
    (ps : Params) (s : World σ) (owner : Host) (hkey : Nat)
    (hloc : h.locateKey (ps.ByName (ascii "name")) (ps.ByName (ascii "key")) s.db
      = .ok (owner, hkey))
    (hcmp : h.hostCmp owner h.this = false) :
    (calls s (handleExPut h w r ps s)).filter Call.isDoRequest =
      [Call.doRequest MethodPost (putTarget h r (ps.ByName (ascii "name")) owner hkey) r.Body]
    ∧ (handleExPut h w r ps s).db =
      (h.doRequest MethodPost (putTarget h r (ps.ByName (ascii "name")) owner hkey) r.Body
        s.db).2
    ∧ (putTarget h r (ps.ByName (ascii "name")) owner hkey).Scheme = h.scheme
    ∧ (putTarget h r (ps.ByName (ascii "name")) owner hkey).Host = h.hostString owner
    ∧ (putTarget h r (ps.ByName (ascii "name")) owner hkey).Path =
        Join [ascii "/put/", ps.ByName (ascii "name"), h.printHKey hkey]
    ∧ (ps.ByName (ascii "name") ≠ [] → slash ∉ ps.ByName (ascii "name") →
        ps.ByName (ascii "name") ≠ [dot] → ps.ByName (ascii "name") ≠ [dot, dot] →
        h.printHKey hkey ≠ [] → (∀ b ∈ h.printHKey hkey, 48 ≤ b.val ∧ b.val ≤ 57) →
        (putTarget h r (ps.ByName (ascii "name")) owner hkey).Path =
          ascii "/put/" ++ ps.ByName (ascii "name") ++ [slash] ++ h.printHKey hkey)
    ∧ ∀ (ps2 : Params) (s2 : World σ),
        ps2.ByName (ascii "name") = ps.ByName (ascii "name") →
        h.locateKey (ps2.ByName (ascii "name")) (ps2.ByName (ascii "key")) s2.db
          = .ok (owner, hkey) →
        (calls s2 (handleExPut h w r ps2 s2)).filter Call.isDoRequest =
          (calls s (handleExPut h w r ps s)).filter Call.isDoRequest := by
  have hf : ∀ (ps1 : Params) (s1 : World σ),
      h.locateKey (ps1.ByName (ascii "name")) (ps1.ByName (ascii "key")) s1.db
        = .ok (owner, hkey) →
      (calls s1 (handleExPut h w r ps1 s1)).filter Call.isDoRequest =
        [Call.doRequest MethodPost (putTarget h r (ps1.ByName (ascii "name")) owner hkey)
          r.Body] := by
    intro ps1 s1 h1
    rw [handleExPut_forward_calls h w r ps1 s1 owner hkey h1 hcmp]
    cases (h.doRequest MethodPost (putTarget h r (ps1.ByName (ascii "name")) owner hkey)
      r.Body s1.db).1 <;> simp [Call.isDoRequest]
  obtain ⟨f1, f2, f3⟩ := putTarget_fields h r (ps.ByName (ascii "name")) owner hkey
  refine ⟨hf ps s hloc, ?_, f1, f2, f3, ?_, ?_⟩
  · rw [handleExPut_forward h w r ps s owner hkey hloc hcmp]
  · intro hne hs hd hdd hp hdig
    rw [f3, Join_put _ _ hne]
    exact Clean_put_seg _ _ hne hs hd hdd hp hdig
  · intro ps2 s2 hname h2
    rw [hf ps2 s2 h2, hf ps s hloc, hname]

set_option maxRecDepth 100000 in
/-- A Put for `users`/`alice`, owned by the peer, is sent once to `10.0.0.2:3320` on
`/put/users/8931799605670079`. -/
theorem handleExPut_forwards_by_hash_key_witness :
    demo.locateKey (ascii "users") (ascii "alice") demoWorld.db
      = .ok (demoPeer, 8931799605670079)
    ∧ demo.hostCmp demoPeer demo.this = false
    ∧ (calls demoWorld (handleExPut demo demoWriter (demoRequest "t=5s" (1 :: ascii "V"))
        (demoParams "users" "alice") demoWorld)).filter Call.isDoRequest =
      [Call.doRequest MethodPost
        (putTarget demo (demoRequest "t=5s" (1 :: ascii "V")) (ascii "users") demoPeer
          8931799605670079) (1 :: ascii "V")]
    ∧ putTarget demo (demoRequest "t=5s" (1 :: ascii "V")) (ascii "users") demoPeer
        8931799605670079 =
      ⟨ascii "http", ascii "10.0.0.2:3320", ascii "/put/users/8931799605670079",
        ascii "t=5s"⟩
    ∧ (handleExPut demo demoWriter (demoRequest "t=5s" (1 :: ascii "V"))
        (demoParams "users" "alice") demoWorld).db.sent =
      [⟨ascii "http", ascii "10.0.0.2:3320", ascii "/put/users/8931799605670079",
        ascii "t=5s"⟩]
    ∧ (putTarget demo (demoRequest "t=5s" (1 :: ascii "V"))
        ((demoParams "users" "alice").ByName (ascii "name")) demoPeer 8931799605670079).Path =
      ascii "/put/" ++ (demoParams "users" "alice").ByName (ascii "name") ++ [slash]
        ++ demo.printHKey 8931799605670079 :=
  ⟨by decide, by decide,
    (handleExPut_forwards_by_hash_key demo demoWriter (demoRequest "t=5s" (1 :: ascii "V"))
      (demoParams "users" "alice") demoWorld demoPeer 8931799605670079
      (by decide) (by decide)).1,
    by decide,
    by
      rw [(handleExPut_forwards_by_hash_key demo demoWriter
        (demoRequest "t=5s" (1 :: ascii "V")) (demoParams "users" "alice") demoWorld demoPeer
        8931799605670079 (by decide) (by decide)).2.1]
      decide,
    (handleExPut_forwards_by_hash_key demo demoWriter (demoRequest "t=5s" (1 :: ascii "V"))
      (demoParams "users" "alice") demoWorld demoPeer 8931799605670079
      (by decide) (by decide)).2.2.2.2.2.1 (by decide) (by decide) (by decide) (by decide)
      (by decide) (by decide)⟩

/-- C8: a forwarded Put applies `doRequest` once, to the database of the request; an
error it returns is answered once, with that error and HTTP 500; without an error
nothing is answered. -/
theorem handleExPut_forward_no_retry (h : Transport σ) (w : ResponseWriter) (r : Request)
    (ps : Params) (s : World σ) (owner : Host) (hkey : Nat)
    (hloc : h.locateKey (ps.ByName (ascii "name")) (ps.ByName (ascii "key")) s.db
      = .ok (owner, hkey))
    (hcmp : h.hostCmp owner h.this = false) :
    ((calls s (handleExPut h w r ps s)).filter Call.isDoRequest).length = 1
    ∧ (handleExPut h w r ps s).db =
      (h.doRequest MethodPost (putTarget h r (ps.ByName (ascii "name")) owner hkey) r.Body
        s.db).2
    ∧ (∀ e, (h.doRequest MethodPost (putTarget h r (ps.ByName (ascii "name")) owner hkey)
          r.Body s.db).1 = some e →
        answers s (handleExPut h w r ps s) = [(e, StatusInternalServerError)])
    ∧ ((h.doRequest MethodPost (putTarget h r (ps.ByName (ascii "name")) owner hkey)
          r.Body s.db).1 = none →
        answers s (handleExPut h w r ps s) = []) := by
  have hdb : (handleExPut h w r ps s).db =
      (h.doRequest MethodPost (putTarget h r (ps.ByName (ascii "name")) owner hkey) r.Body
        s.db).2 := by
    rw [handleExPut_forward h w r ps s owner hkey hloc hcmp]
  unfold answers
  rw [handleExPut_forward_calls h w r ps s owner hkey hloc hcmp]
  refine ⟨?_, hdb, ?_, ?_⟩
  · cases (h.doRequest MethodPost (putTarget h r (ps.ByName (ascii "name")) owner hkey)
      r.Body s.db).1 <;> simp [Call.isDoRequest]
  · intro e he
    simp [he]
  · intro he
    simp [he]

/-- A forward to a peer that is down at the first attempt is answered once with HTTP
500 after that one attempt; a forward that succeeds is not answered with an
error. -/
theorem handleExPut_forward_no_retry_witness :
    (demoFlaky.locateKey (ascii "users") (ascii "alice") demoWorld.db
        = .ok (demoPeer, 8931799605670079)
      ∧ demoFlaky.hostCmp demoPeer demoFlaky.this = false)
    ∧ (((calls demoWorld (handleExPut demoFlaky demoWriter (demoRequest "" (1 :: ascii "V"))
          (demoParams "users" "alice") demoWorld)).filter Call.isDoRequest).length = 1
      ∧ answers demoWorld (handleExPut demoFlaky demoWriter (demoRequest "" (1 :: ascii "V"))
          (demoParams "users" "alice") demoWorld)
        = [(Err.other (ascii "connection refused"), StatusInternalServerError)]
      ∧ (handleExPut demoFlaky demoWriter (demoRequest "" (1 :: ascii "V"))
          (demoParams "users" "alice") demoWorld).db.sent.length = 1)
    ∧ (((calls demoWorld (handleExPut demo demoWriter (demoRequest "" (1 :: ascii "V"))
          (demoParams "users" "alice") demoWorld)).filter Call.isDoRequest).length = 1
      ∧ answers demoWorld (handleExPut demo demoWriter (demoRequest "" (1 :: ascii "V"))
          (demoParams "users" "alice") demoWorld) = []) :=
  ⟨⟨by decide, by decide⟩,
    ⟨(handleExPut_forward_no_retry demoFlaky demoWriter (demoRequest "" (1 :: ascii "V"))
        (demoParams "users" "alice") demoWorld demoPeer 8931799605670079
        (by decide) (by decide)).1,
      (handleExPut_forward_no_retry demoFlaky demoWriter (demoRequest "" (1 :: ascii "V"))
        (demoParams "users" "alice") demoWorld demoPeer 8931799605670079
        (by decide) (by decide)).2.2.1 _ (by decide),
      by
        rw [(handleExPut_forward_no_retry demoFlaky demoWriter
          (demoRequest "" (1 :: ascii "V")) (demoParams "users" "alice") demoWorld demoPeer
          8931799605670079 (by decide) (by decide)).2.1]
        decide⟩,
    ⟨(handleExPut_forward_no_retry demo demoWriter (demoRequest "" (1 :: ascii "V"))
        (demoParams "users" "alice") demoWorld demoPeer 8931799605670079
        (by decide) (by decide)).1,
      (handleExPut_forward_no_retry demo demoWriter (demoRequest "" (1 :: ascii "V"))
        (demoParams "users" "alice") demoWorld demoPeer 8931799605670079
        (by decide) (by decide)).2.2.2 (by decide)⟩⟩

/-- C3: a forwarded Put carries the inbound timeout verbatim: a non-empty value `s` of
`t` becomes the raw query `t=QueryEscape(s)`, which decodes to the single parameter
`t` with the single value `s`; an absent or empty `t` leaves the forwarded URL
without a query; the duration is not parsed on this branch. -/
theorem handleExPut_forward_timeout_verbatim (h : Transport σ) (w : ResponseWriter)
    (r : Request) (ps : Params) (s : World σ) (owner : Host) (hkey : Nat)
    (hloc : h.locateKey (ps.ByName (ascii "name")) (ps.ByName (ascii "key")) s.db
      = .ok (owner, hkey))
    (hcmp : h.hostCmp owner h.this = false) :
    (calls s (handleExPut h w r ps s)).filter Call.isDoRequest =
      [Call.doRequest MethodPost (putTarget h r (ps.ByName (ascii "name")) owner hkey) r.Body]
    ∧ (calls s (handleExPut h w r ps s)).filter Call.isParseDuration = []
    ∧ (r.URL.Query.Get (ascii "t") ≠ [] →
        (putTarget h r (ps.ByName (ascii "name")) owner hkey).RawQuery =
          ascii "t=" ++ QueryEscape (r.URL.Query.Get (ascii "t"))
        ∧ (putTarget h r (ps.ByName (ascii "name")) owner hkey).Query =
          [(ascii "t", [r.URL.Query.Get (ascii "t")])])
    ∧ (r.URL.Query.lookup (ascii "t") = [] ∨ r.URL.Query.Get (ascii "t") = [] →
        (putTarget h r (ps.ByName (ascii "name")) owner hkey).RawQuery = []) := by
  rw [handleExPut_forward_calls h w r ps s owner hkey hloc hcmp]
  refine ⟨?_, ?_, ?_, ?_⟩
  · cases (h.doRequest MethodPost (putTarget h r (ps.ByName (ascii "name")) owner hkey)
      r.Body s.db).1 <;> simp [Call.isDoRequest]
  · cases (h.doRequest MethodPost (putTarget h r (ps.ByName (ascii "name")) owner hkey)
      r.Body s.db).1 <;> simp [Call.isParseDuration]
  · intro ht
    have hq := putTarget_query h r (ps.ByName (ascii "name")) owner hkey ht
    refine ⟨by rw [hq]; rfl, ?_⟩
    unfold URL.Query
    rw [hq]
    exact parseQuery_single _ _
  · intro ht
    have ht2 : r.URL.Query.Get (ascii "t") = [] := by
      rcases ht with ht | ht
      · exact Get_absent _ _ ht
      · exact ht
    exact putTarget_no_query h r _ owner hkey ht2

/-- The inbound `t=1%20h` is forwarded as the single parameter `t` with value `1 h`; a
request without `t` is forwarded without a query. -/
theorem handleExPut_forward_timeout_verbatim_witness :
    (demo.locateKey (ascii "users") (ascii "alice") demoWorld.db
        = .ok (demoPeer, 8931799605670079)
      ∧ demo.hostCmp demoPeer demo.this = false
      ∧ (demoRequest "x=1&t=1%20h" (1 :: ascii "V")).URL.Query.Get (ascii "t") = ascii "1 h"
      ∧ (putTarget demo (demoRequest "x=1&t=1%20h" (1 :: ascii "V"))
          ((demoParams "users" "alice").ByName (ascii "name")) demoPeer
          8931799605670079).RawQuery =
        ascii "t=" ++ QueryEscape ((demoRequest "x=1&t=1%20h" (1 :: ascii "V")).URL.Query.Get
          (ascii "t"))
      ∧ (putTarget demo (demoRequest "x=1&t=1%20h" (1 :: ascii "V"))
          ((demoParams "users" "alice").ByName (ascii "name")) demoPeer
          8931799605670079).Query =
        [(ascii "t", [(demoRequest "x=1&t=1%20h" (1 :: ascii "V")).URL.Query.Get
          (ascii "t")])])
    ∧ ((demoRequest "x=1" (1 :: ascii "V")).URL.Query.lookup (ascii "t") = []
      ∧ (putTarget demo (demoRequest "x=1" (1 :: ascii "V"))
          ((demoParams "users" "alice").ByName (ascii "name")) demoPeer
          8931799605670079).RawQuery = []) :=
  ⟨⟨by decide, by decide, by decide,
      (handleExPut_forward_timeout_verbatim demo demoWriter
        (demoRequest "x=1&t=1%20h" (1 :: ascii "V")) (demoParams "users" "alice") demoWorld
        demoPeer 8931799605670079 (by decide) (by decide)).2.2.1 (by decide)⟩,
    ⟨by decide,
      (handleExPut_forward_timeout_verbatim demo demoWriter
        (demoRequest "x=1" (1 :: ascii "V")) (demoParams "users" "alice") demoWorld
        demoPeer 8931799605670079 (by decide) (by decide)).2.2.2 (Or.inl (by decide))⟩⟩

theorem putTimeout_error (h : Transport σ) (r : Request) (err : Err)
    (hpar : putTimeout h r = .error err) :
    r.URL.Query.Get (ascii "t") ≠ [] ∧
      ParseDuration h.durationUnits (r.URL.Query.Get (ascii "t")) = .error err := by
  unfold putTimeout at hpar
  by_cases ht : r.URL.Query.Get (ascii "t") = []
  · simp [ht] at hpar
  · simp only [ht, ne_eq, not_false_eq_true, if_true] at hpar
    exact ⟨ht, hpar⟩

/-- The local branch of `handleExPut` never forwards. -/
theorem handleExPut_local_no_forward (h : Transport σ) (w : ResponseWriter) (r : Request)
    (ps : Params) (s : World σ) (owner : Host) (hkey : Nat)
    (hloc : h.locateKey (ps.ByName (ascii "name")) (ps.ByName (ascii "key")) s.db
      = .ok (owner, hkey))
    (hcmp : h.hostCmp owner h.this = true) :
    (calls s (handleExPut h w r ps s)).filter Call.isDoRequest = [] := by
  cases hdec : gobDecode h s.registry r.Body with
  | error e =>
    rw [handleExPut_local_undecodable h w r ps s owner hkey e hloc hcmp hdec, calls_append]
    simp [Call.isDoRequest]
  | ok v =>
    cases hpar : putTimeout h r with
    | error e =>
      obtain ⟨ht, hp⟩ := putTimeout_error h r e hpar
      rw [handleExPut_local_malformed h w r ps s owner hkey v e hloc hcmp hdec ht hp,
        calls_append]
      simp [Call.isDoRequest]
    | ok d =>
      rw [handleExPut_local_stored h w r ps s owner hkey v d hloc hcmp hdec hpar, calls_append]
      cases (h.putKeyVal hkey (ps.ByName (ascii "name")) v d s.db).1 <;>
        by_cases ht : r.URL.Query.Get (ascii "t") = [] <;> simp [Call.isDoRequest, ht]

/-- The database after the local branch of `handleExPut`. -/
theorem handleExPut_local_db (h : Transport σ) (w : ResponseWriter) (r : Request)
    (ps : Params) (s : World σ) (owner : Host) (hkey : Nat)
    (hloc : h.locateKey (ps.ByName (ascii "name")) (ps.ByName (ascii "key")) s.db
      = .ok (owner, hkey))
    (hcmp : h.hostCmp owner h.this = true) :
    (handleExPut h w r ps s).db =
      match gobDecode h s.registry r.Body, putTimeout h r with
      | .ok v, .ok d => (h.putKeyVal hkey (ps.ByName (ascii "name")) v d s.db).2
      | _, _ => s.db := by
  cases hdec : gobDecode h s.registry r.Body with
  | error e => rw [handleExPut_local_undecodable h w r ps s owner hkey e hloc hcmp hdec]
  | ok v =>
    cases hpar : putTimeout h r with
    | error e =>
      obtain ⟨ht, hp⟩ := putTimeout_error h r e hpar
      rw [handleExPut_local_malformed h w r ps s owner hkey v e hloc hcmp hdec ht hp]
    | ok d => rw [handleExPut_local_stored h w r ps s owner hkey v d hloc hcmp hdec hpar]

/-- C2: routing in `handleExPut` is decided once, for every request.  When the owner
cannot be located nothing runs: no forward, no decode, no store, the database is
as before.  A key owned by this node is never forwarded: the database is either
as before or what the one `putKeyVal` made of it.  A key owned by another node is
forwarded with one `doRequest`, the database is what that one call made of it,
and the body is not decoded and `putKeyVal` is not called, whatever `doRequest`
returns.  In no case do both a forward and a local decode or store happen. -/
theorem handleExPut_routes_once (h : Transport σ) (w : ResponseWriter) (r : Request)
    (ps : Params) (s : World σ) :
    ((calls s (handleExPut h w r ps s)).filter Call.isDoRequest = []
      ∨ ((calls s (handleExPut h w r ps s)).filter Call.isDecode = []
        ∧ (calls s (handleExPut h w r ps s)).filter Call.isPutKeyVal = []))
    ∧ (∀ e, h.locateKey (ps.ByName (ascii "name")) (ps.ByName (ascii "key")) s.db
        = .error e →
      (calls s (handleExPut h w r ps s)).filter Call.isDoRequest = []
      ∧ (calls s (handleExPut h w r ps s)).filter Call.isDecode = []
      ∧ (calls s (handleExPut h w r ps s)).filter Call.isPutKeyVal = []
      ∧ (handleExPut h w r ps s).db = s.db)
    ∧ (∀ owner hkey, h.locateKey (ps.ByName (ascii "name")) (ps.ByName (ascii "key")) s.db
        = .ok (owner, hkey) →
      (h.hostCmp owner h.this = true →
        (calls s (handleExPut h w r ps s)).filter Call.isDoRequest = []
        ∧ (handleExPut h w r ps s).db =
          match gobDecode h s.registry r.Body, putTimeout h r with
          | .ok v, .ok d => (h.putKeyVal hkey (ps.ByName (ascii "name")) v d s.db).2
          | _, _ => s.db)
      ∧ (h.hostCmp owner h.this = false →
        ((calls s (handleExPut h w r ps s)).filter Call.isDoRequest).length = 1
        ∧ (calls s (handleExPut h w r ps s)).filter Call.isDecode = []
        ∧ (calls s (handleExPut h w r ps s)).filter Call.isPutKeyVal = []
        ∧ (handleExPut h w r ps s).db =
          (h.doRequest MethodPost (putTarget h r (ps.ByName (ascii "name")) owner hkey)
            r.Body s.db).2)) := by
  have herr : ∀ e, h.locateKey (ps.ByName (ascii "name")) (ps.ByName (ascii "key")) s.db
        = .error e →
      (calls s (handleExPut h w r ps s)).filter Call.isDoRequest = []
      ∧ (calls s (handleExPut h w r ps s)).filter Call.isDecode = []
      ∧ (calls s (handleExPut h w r ps s)).filter Call.isPutKeyVal = []
      ∧ (handleExPut h w r ps s).db = s.db := by
    intro e he
    rw [handleExPut_unlocated h w r ps s e he, calls_append]
    simp [Call.isDoRequest, Call.isDecode, Call.isPutKeyVal]
  have hfwd : ∀ owner hkey, h.locateKey (ps.ByName (ascii "name")) (ps.ByName (ascii "key"))
        s.db = .ok (owner, hkey) → h.hostCmp owner h.this = false →
      ((calls s (handleExPut h w r ps s)).filter Call.isDoRequest).length = 1
      ∧ (calls s (handleExPut h w r ps s)).filter Call.isDecode = []
      ∧ (calls s (handleExPut h w r ps s)).filter Call.isPutKeyVal = []
      ∧ (handleExPut h w r ps s).db =
        (h.doRequest MethodPost (putTarget h r (ps.ByName (ascii "name")) owner hkey)
          r.Body s.db).2 := by
    intro owner hkey hloc hcmp
    have hdb : (handleExPut h w r ps s).db =
        (h.doRequest MethodPost (putTarget h r (ps.ByName (ascii "name")) owner hkey)
          r.Body s.db).2 := by
      rw [handleExPut_forward h w r ps s owner hkey hloc hcmp]
    rw [handleExPut_forward_calls h w r ps s owner hkey hloc hcmp]
    refine ⟨?_, ?_, ?_, hdb⟩ <;>
      cases (h.doRequest MethodPost (putTarget h r (ps.ByName (ascii "name")) owner hkey)
        r.Body s.db).1 <;> simp [Call.isDoRequest, Call.isDecode, Call.isPutKeyVal]
  refine ⟨?_, herr, ?_⟩
  · cases hloc : h.locateKey (ps.ByName (ascii "name")) (ps.ByName (ascii "key")) s.db with
    | error e => exact Or.inl (herr e hloc).1
    | ok p =>
      obtain ⟨owner, hkey⟩ := p
      cases hcmp : h.hostCmp owner h.this with
      | true => exact Or.inl (handleExPut_local_no_forward h w r ps s owner hkey hloc hcmp)
      | false => exact Or.inr ⟨(hfwd owner hkey hloc hcmp).2.1, (hfwd owner hkey hloc hcmp).2.2.1⟩
  · intro owner hkey hloc
    exact ⟨fun hcmp => ⟨handleExPut_local_no_forward h w r ps s owner hkey hloc hcmp,
      handleExPut_local_db h w r ps s owner hkey hloc hcmp⟩, hfwd owner hkey hloc⟩

/-- The key `alice` is sent to the peer and not stored; the key `bob` is stored and
nothing is sent; without a map name nothing is sent and nothing stored. -/
theorem handleExPut_routes_once_witness :
    (demo.locateKey ((demoParams "users" "alice").ByName (ascii "name"))
        ((demoParams "users" "alice").ByName (ascii "key")) demoWorld.db
        = .ok (demoPeer, 8931799605670079)
      ∧ demo.hostCmp demoPeer demo.this = false
      ∧ ((calls demoWorld (handleExPut demo demoWriter (demoRequest "" (1 :: ascii "V"))
          (demoParams "users" "alice") demoWorld)).filter Call.isDoRequest).length = 1
      ∧ (calls demoWorld (handleExPut demo demoWriter (demoRequest "" (1 :: ascii "V"))
          (demoParams "users" "alice") demoWorld)).filter Call.isDecode = []
      ∧ (calls demoWorld (handleExPut demo demoWriter (demoRequest "" (1 :: ascii "V"))
          (demoParams "users" "alice") demoWorld)).filter Call.isPutKeyVal = []
      ∧ (handleExPut demo demoWriter (demoRequest "" (1 :: ascii "V"))
          (demoParams "users" "alice") demoWorld).db =
        { entries := [], locks := [],
          sent := [⟨ascii "http", ascii "10.0.0.2:3320",
            ascii "/put/users/8931799605670079", []⟩] })
    ∧ (demo.locateKey ((demoParams "users" "bob").ByName (ascii "name"))
        ((demoParams "users" "bob").ByName (ascii "key")) demoWorld.db
        = .ok (demoThis, 9294276385716)
      ∧ demo.hostCmp demoThis demo.this = true
      ∧ (calls demoWorld (handleExPut demo demoWriter (demoRequest "" (1 :: ascii "V"))
          (demoParams "users" "bob") demoWorld)).filter Call.isDoRequest = []
      ∧ (handleExPut demo demoWriter (demoRequest "" (1 :: ascii "V"))
          (demoParams "users" "bob") demoWorld).db =
        { entries := [(9294276385716, ascii "users", ⟨1, ascii "V"⟩, 0)], locks := [],
          sent := [] })
    ∧ (demo.locateKey ((demoParams "" "bob").ByName (ascii "name"))
        ((demoParams "" "bob").ByName (ascii "key")) demoWorld.db
        = .error (.other (ascii "no partition"))
      ∧ (calls demoWorld (handleExPut demo demoWriter (demoRequest "" (1 :: ascii "V"))
          (demoParams "" "bob") demoWorld)).filter Call.isDoRequest = []
      ∧ (calls demoWorld (handleExPut demo demoWriter (demoRequest "" (1 :: ascii "V"))
          (demoParams "" "bob") demoWorld)).filter Call.isDecode = []
      ∧ (calls demoWorld (handleExPut demo demoWriter (demoRequest "" (1 :: ascii "V"))
          (demoParams "" "bob") demoWorld)).filter Call.isPutKeyVal = []
      ∧ (handleExPut demo demoWriter (demoRequest "" (1 :: ascii "V"))
          (demoParams "" "bob") demoWorld).db = demoWorld.db) :=
  ⟨⟨by decide, by decide,
      ((handleExPut_routes_once demo demoWriter (demoRequest "" (1 :: ascii "V"))
        (demoParams "users" "alice") demoWorld).2.2 demoPeer 8931799605670079
        (by decide)).2 (by decide) |>.1,
      ((handleExPut_routes_once demo demoWriter (demoRequest "" (1 :: ascii "V"))
        (demoParams "users" "alice") demoWorld).2.2 demoPeer 8931799605670079
        (by decide)).2 (by decide) |>.2.1,
      ((handleExPut_routes_once demo demoWriter (demoRequest "" (1 :: ascii "V"))
        (demoParams "users" "alice") demoWorld).2.2 demoPeer 8931799605670079
        (by decide)).2 (by decide) |>.2.2.1,
      by
        rw [(((handleExPut_routes_once demo demoWriter (demoRequest "" (1 :: ascii "V"))
          (demoParams "users" "alice") demoWorld).2.2 demoPeer 8931799605670079
          (by decide)).2 (by decide)).2.2.2]
        decide⟩,
    ⟨by decide, by decide,
      (((handleExPut_routes_once demo demoWriter (demoRequest "" (1 :: ascii "V"))
        (demoParams "users" "bob") demoWorld).2.2 demoThis 9294276385716
        (by decide)).1 (by decide)).1,
      by
        rw [(((handleExPut_routes_once demo demoWriter (demoRequest "" (1 :: ascii "V"))
          (demoParams "users" "bob") demoWorld).2.2 demoThis 9294276385716
          (by decide)).1 (by decide)).2]
        decide⟩,
    ⟨by decide,
      (handleExPut_routes_once demo demoWriter (demoRequest "" (1 :: ascii "V"))
        (demoParams "" "bob") demoWorld).2.1 (.other (ascii "no partition")) (by decide)⟩⟩

/-- C4: `handleExLockWithTimeout` needs a timeout that parses: when `t` does not
parse (in particular when it is absent or empty) the handler answers that error
with HTTP 500, calls no `LockWithTimeout` and leaves the database as it was; when
`t` parses to `d`, `LockWithTimeout` is applied once, to the request's map and
key, `d` and the database of the request, and its error, if any, is answered. -/
theorem handleExLockWithTimeout_requires_timeout (h : Transport σ) (w : ResponseWriter)
    (r : Request) (ps : Params) (s : World σ) :
    (∀ e, ParseDuration h.durationUnits (r.URL.Query.Get (ascii "t")) = .error e →
      answers s (handleExLockWithTimeout h w r ps s) = [(e, StatusInternalServerError)]
      ∧ (calls s (handleExLockWithTimeout h w r ps s)).filter Call.isLockWithTimeout = []
      ∧ (handleExLockWithTimeout h w r ps s).db = s.db)
    ∧ (r.URL.Query.lookup (ascii "t") = [] ∨ r.URL.Query.Get (ascii "t") = [] →
      answers s (handleExLockWithTimeout h w r ps s)
        = [(Err.duration [], StatusInternalServerError)]
      ∧ (calls s (handleExLockWithTimeout h w r ps s)).filter Call.isLockWithTimeout = []
      ∧ (handleExLockWithTimeout h w r ps s).db = s.db)
    ∧ (∀ d, ParseDuration h.durationUnits (r.URL.Query.Get (ascii "t")) = .ok d →
      (calls s (handleExLockWithTimeout h w r ps s)).filter Call.isLockWithTimeout =
        [Call.lockWithTimeout (NewDMap (ps.ByName (ascii "name"))) (ps.ByName (ascii "key"))
          d]
      ∧ (handleExLockWithTimeout h w r ps s).db =
        (h.dmLockWithTimeout (NewDMap (ps.ByName (ascii "name"))) (ps.ByName (ascii "key"))
          d s.db).2
      ∧ answers s (handleExLockWithTimeout h w r ps s) =
        match (h.dmLockWithTimeout (NewDMap (ps.ByName (ascii "name")))
          (ps.ByName (ascii "key")) d s.db).1 with
        | some e =>
          [(e, if e = Err.ErrKeyNotFound then StatusNotFound else StatusInternalServerError)]
        | none => []) := by
  have hbad : ∀ e, ParseDuration h.durationUnits (r.URL.Query.Get (ascii "t")) = .error e →
      answers s (handleExLockWithTimeout h w r ps s) = [(e, StatusInternalServerError)]
      ∧ (calls s (handleExLockWithTimeout h w r ps s)).filter Call.isLockWithTimeout = []
      ∧ (handleExLockWithTimeout h w r ps s).db = s.db := by
    intro e he
    unfold answers
    rw [handleExLockWithTimeout_malformed h w r ps s e he, calls_append]
    simp [Call.isLockWithTimeout]
  refine ⟨hbad, ?_, ?_⟩
  · intro ht
    have ht2 : r.URL.Query.Get (ascii "t") = [] := by
      rcases ht with ht | ht
      · exact Get_absent _ _ ht
      · exact ht
    apply hbad
    rw [ht2]
    exact ParseDuration_empty _
  · intro d hd
    unfold answers
    rw [handleExLockWithTimeout_parsed h w r ps s d hd, calls_append]
    cases hres : (h.dmLockWithTimeout (NewDMap (ps.ByName (ascii "name")))
      (ps.ByName (ascii "key")) d s.db).1 <;> simp [Call.isLockWithTimeout]

/-- The timeouts `soon` and absent are answered with HTTP 500 without a lock call; `2s`
leads to one lock call with two seconds, after which the lock is held. -/
theorem handleExLockWithTimeout_requires_timeout_witness :
    (ParseDuration demo.durationUnits ((demoRequest "t=soon" []).URL.Query.Get (ascii "t"))
        = .error (.duration (ascii "soon"))
      ∧ answers demoWorld (handleExLockWithTimeout demo demoWriter (demoRequest "t=soon" [])
          (demoParams "users" "alice") demoWorld)
        = [(Err.duration (ascii "soon"), StatusInternalServerError)]
      ∧ (calls demoWorld (handleExLockWithTimeout demo demoWriter (demoRequest "t=soon" [])
          (demoParams "users" "alice") demoWorld)).filter Call.isLockWithTimeout = []
      ∧ (handleExLockWithTimeout demo demoWriter (demoRequest "t=soon" [])
          (demoParams "users" "alice") demoWorld).db = demoWorld.db)
    ∧ ((demoRequest "" []).URL.Query.lookup (ascii "t") = []
      ∧ answers demoWorld (handleExLockWithTimeout demo demoWriter (demoRequest "" [])
          (demoParams "users" "alice") demoWorld)
        = [(Err.duration [], StatusInternalServerError)]
      ∧ (calls demoWorld (handleExLockWithTimeout demo demoWriter (demoRequest "" [])
          (demoParams "users" "alice") demoWorld)).filter Call.isLockWithTimeout = []
      ∧ (handleExLockWithTimeout demo demoWriter (demoRequest "" [])
          (demoParams "users" "alice") demoWorld).db = demoWorld.db)
    ∧ (ParseDuration demo.durationUnits ((demoRequest "t=2s" []).URL.Query.Get (ascii "t"))
        = .ok 2000000000
      ∧ (calls demoWorld (handleExLockWithTimeout demo demoWriter (demoRequest "t=2s" [])
          (demoParams "users" "alice") demoWorld)).filter Call.isLockWithTimeout =
        [Call.lockWithTimeout (NewDMap ((demoParams "users" "alice").ByName (ascii "name")))
          ((demoParams "users" "alice").ByName (ascii "key")) 2000000000]
      ∧ (handleExLockWithTimeout demo demoWriter (demoRequest "t=2s" [])
          (demoParams "users" "alice") demoWorld).db.locks = [(ascii "users", ascii "alice")]) :=
  ⟨⟨by decide,
      (handleExLockWithTimeout_requires_timeout demo demoWriter (demoRequest "t=soon" [])
        (demoParams "users" "alice") demoWorld).1 _ (by decide)⟩,
    ⟨by decide,
      (handleExLockWithTimeout_requires_timeout demo demoWriter (demoRequest "" [])
        (demoParams "users" "alice") demoWorld).2.1 (Or.inl (by decide))⟩,
    ⟨by decide,
      ((handleExLockWithTimeout_requires_timeout demo demoWriter (demoRequest "t=2s" [])
        (demoParams "users" "alice") demoWorld).2.2 _ (by decide)).1,
      by
        rw [((handleExLockWithTimeout_requires_timeout demo demoWriter
          (demoRequest "t=2s" []) (demoParams "users" "alice") demoWorld).2.2 2000000000
          (by decide)).2.1]
        decide⟩⟩

/-- C5: a Put served locally whose body decodes to `v` stores with the timeout that
`t` determines: without `t` (absent or empty) `putKeyVal` gets `nilTimeout`, with a
`t` that parses to `d` it gets `d`; in both cases `putKeyVal` is applied once, to
the hash key of `locateKey`, the map name, `v`, that timeout and the database of
the request, after `registerValueType(v)`, and its error, if any, is answered
with HTTP 500; with a non-empty `t` that does not parse the handler answers HTTP
500, `putKeyVal` is not called and the database is as before. -/
theorem handleExPut_local_timeout (h : Transport σ) (w : ResponseWriter) (r : Request)
    (ps : Params) (s : World σ) (owner : Host) (hkey : Nat) (v : Value)
    (hloc : h.locateKey (ps.ByName (ascii "name")) (ps.ByName (ascii "key")) s.db
      = .ok (owner, hkey))
    (hcmp : h.hostCmp owner h.this = true)
    (hdec : gobDecode h s.registry r.Body = .ok v) :
    (r.URL.Query.lookup (ascii "t") = [] ∨ r.URL.Query.Get (ascii "t") = [] →
      (calls s (handleExPut h w r ps s)).filter Call.isPutKeyVal =
        [Call.putKeyVal hkey (ps.ByName (ascii "name")) v h.nilTimeout]
      ∧ (handleExPut h w r ps s).db =
        (h.putKeyVal hkey (ps.ByName (ascii "name")) v h.nilTimeout s.db).2
      ∧ (handleExPut h w r ps s).registry = h.registerValueType v s.registry
      ∧ answers s (handleExPut h w r ps s) =
        match (h.putKeyVal hkey (ps.ByName (ascii "name")) v h.nilTimeout s.db).1 with
        | some e => [(e, StatusInternalServerError)]
        | none => [])
    ∧ (∀ d, r.URL.Query.Get (ascii "t") ≠ [] →
      ParseDuration h.durationUnits (r.URL.Query.Get (ascii "t")) = .ok d →
      (calls s (handleExPut h w r ps s)).filter Call.isPutKeyVal =
        [Call.putKeyVal hkey (ps.ByName (ascii "name")) v d]
      ∧ (handleExPut h w r ps s).db = (h.putKeyVal hkey (ps.ByName (ascii "name")) v d s.db).2
      ∧ (handleExPut h w r ps s).registry = h.registerValueType v s.registry
      ∧ answers s (handleExPut h w r ps s) =
        match (h.putKeyVal hkey (ps.ByName (ascii "name")) v d s.db).1 with
        | some e => [(e, StatusInternalServerError)]
        | none => [])
    ∧ (∀ e, r.URL.Query.Get (ascii "t") ≠ [] →
      ParseDuration h.durationUnits (r.URL.Query.Get (ascii "t")) = .error e →
      answers s (handleExPut h w r ps s) = [(e, StatusInternalServerError)]
      ∧ (calls s (handleExPut h w r ps s)).filter Call.isPutKeyVal = []
      ∧ (handleExPut h w r ps s).db = s.db) := by
  have hst : ∀ d, putTimeout h r = .ok d →
      (calls s (handleExPut h w r ps s)).filter Call.isPutKeyVal =
        [Call.putKeyVal hkey (ps.ByName (ascii "name")) v d]
      ∧ (handleExPut h w r ps s).db = (h.putKeyVal hkey (ps.ByName (ascii "name")) v d s.db).2
      ∧ (handleExPut h w r ps s).registry = h.registerValueType v s.registry
      ∧ answers s (handleExPut h w r ps s) =
        match (h.putKeyVal hkey (ps.ByName (ascii "name")) v d s.db).1 with
        | some e => [(e, StatusInternalServerError)]
        | none => [] := by
    intro d hd
    unfold answers
    rw [handleExPut_local_stored h w r ps s owner hkey v d hloc hcmp hdec hd, calls_append]
    cases hres : (h.putKeyVal hkey (ps.ByName (ascii "name")) v d s.db).1 <;>
      by_cases ht : r.URL.Query.Get (ascii "t") = [] <;> simp [Call.isPutKeyVal, ht]
  refine ⟨?_, ?_, ?_⟩
  · intro ht
    have ht2 : r.URL.Query.Get (ascii "t") = [] := by
      rcases ht with ht | ht
      · exact Get_absent _ _ ht
      · exact ht
    exact hst _ (by simp [putTimeout, ht2])
  · intro d ht hd
    exact hst d (by simp [putTimeout, ht, hd])
  · intro e ht he
    unfold answers
    rw [handleExPut_local_malformed h w r ps s owner hkey v e hloc hcmp hdec ht he,
      calls_append]
    simp [Call.isPutKeyVal]

/-- A local Put for `users`/`bob` stores with `nilTimeout` without `t`, with five
seconds for `t=5s`, and stores nothing for `t=soon`. -/
theorem handleExPut_local_timeout_witness :
    (demo.locateKey (ascii "users") (ascii "bob") demoWorld.db
        = .ok (demoThis, 9294276385716)
      ∧ demo.hostCmp demoThis demo.this = true
      ∧ gobDecode demo demoWorld.registry (1 :: ascii "V") = .ok ⟨1, ascii "V"⟩)
    ∧ ((demoRequest "" (1 :: ascii "V")).URL.Query.lookup (ascii "t") = []
      ∧ (calls demoWorld (handleExPut demo demoWriter (demoRequest "" (1 :: ascii "V"))
          (demoParams "users" "bob") demoWorld)).filter Call.isPutKeyVal =
        [Call.putKeyVal 9294276385716 ((demoParams "users" "bob").ByName (ascii "name"))
          ⟨1, ascii "V"⟩ demo.nilTimeout]
      ∧ (handleExPut demo demoWriter (demoRequest "" (1 :: ascii "V"))
          (demoParams "users" "bob") demoWorld).db.entries =
        [(9294276385716, ascii "users", ⟨1, ascii "V"⟩, 0)])
    ∧ (ParseDuration demo.durationUnits
          ((demoRequest "t=5s" (1 :: ascii "V")).URL.Query.Get (ascii "t")) = .ok 5000000000
      ∧ (calls demoWorld (handleExPut demo demoWriter (demoRequest "t=5s" (1 :: ascii "V"))
          (demoParams "users" "bob") demoWorld)).filter Call.isPutKeyVal =
        [Call.putKeyVal 9294276385716 ((demoParams "users" "bob").ByName (ascii "name"))
          ⟨1, ascii "V"⟩ 5000000000]
      ∧ (handleExPut demo demoWriter (demoRequest "t=5s" (1 :: ascii "V"))
          (demoParams "users" "bob") demoWorld).db.entries =
        [(9294276385716, ascii "users", ⟨1, ascii "V"⟩, 5000000000)])
    ∧ (ParseDuration demo.durationUnits
          ((demoRequest "t=soon" (1 :: ascii "V")).URL.Query.Get (ascii "t"))
        = .error (.duration (ascii "soon"))
      ∧ answers demoWorld (handleExPut demo demoWriter (demoRequest "t=soon" (1 :: ascii "V"))
          (demoParams "users" "bob") demoWorld)
        = [(Err.duration (ascii "soon"), StatusInternalServerError)]
      ∧ (calls demoWorld (handleExPut demo demoWriter (demoRequest "t=soon" (1 :: ascii "V"))
          (demoParams "users" "bob") demoWorld)).filter Call.isPutKeyVal = []
      ∧ (handleExPut demo demoWriter (demoRequest "t=soon" (1 :: ascii "V"))
          (demoParams "users" "bob") demoWorld).db = demoWorld.db) :=
  ⟨⟨by decide, by decide, by decide⟩,
    ⟨by decide,
      ((handleExPut_local_timeout demo demoWriter (demoRequest "" (1 :: ascii "V"))
        (demoParams "users" "bob") demoWorld demoThis 9294276385716 ⟨1, ascii "V"⟩
        (by decide) (by decide) (by decide)).1 (Or.inl (by decide))).1,
      by
        rw [((handleExPut_local_timeout demo demoWriter (demoRequest "" (1 :: ascii "V"))
          (demoParams "users" "bob") demoWorld demoThis 9294276385716 ⟨1, ascii "V"⟩
          (by decide) (by decide) (by decide)).1 (Or.inl (by decide))).2.1]
        decide⟩,
    ⟨by decide,
      ((handleExPut_local_timeout demo demoWriter (demoRequest "t=5s" (1 :: ascii "V"))
        (demoParams "users" "bob") demoWorld demoThis 9294276385716 ⟨1, ascii "V"⟩
        (by decide) (by decide) (by decide)).2.1 _ (by decide) (by decide)).1,
      by
        rw [((handleExPut_local_timeout demo demoWriter (demoRequest "t=5s" (1 :: ascii "V"))
          (demoParams "users" "bob") demoWorld demoThis 9294276385716 ⟨1, ascii "V"⟩
          (by decide) (by decide) (by decide)).2.1 5000000000 (by decide) (by decide)).2.1]
        decide⟩,
    ⟨by decide,
      (handleExPut_local_timeout demo demoWriter (demoRequest "t=soon" (1 :: ascii "V"))
        (demoParams "users" "bob") demoWorld demoThis 9294276385716 ⟨1, ascii "V"⟩
        (by decide) (by decide) (by decide)).2.2 _ (by decide) (by decide)⟩⟩

/-- C6 as stated fails for `handleExGet`: `dm.Get` returns the stored value and no
error, the client went away, encoding the value to the response fails, and the
handler answers HTTP 500. -/
theorem handleExGet_answers_without_get_error :
    (demo.dmGet (NewDMap (ascii "users")) (ascii "alice") demoStored.db).1
      = .ok ⟨1, ascii "V"⟩
    ∧ answers demoStored (handleExGet demo brokenWriter (demoRequest "" [])
        (demoParams "users" "alice") demoStored)
      = [(Err.other (ascii "write: broken pipe"), 500)] := by
  decide

/-- C6, as amended: each handler answers the error of its operation with a status
that tells the documented condition from the rest: `handleExGet` and
`handleExLockWithTimeout` answer `ErrKeyNotFound` with HTTP 404, `handleExUnlock`
answers `ErrNoSuchLock` with HTTP 404, every other error of the operation is
answered with HTTP 500, so a 404 is answered if and only if the operation returned
the sentinel; without an error `handleExLockWithTimeout` and `handleExUnlock`
answer nothing, and `handleExGet` answers nothing when encoding the value succeeds
and HTTP 500 with the encoder's error when it fails. -/
theorem handlers_answer_by_error_kind (h : Transport σ) (w : ResponseWriter) (r : Request)
    (ps : Params) (s : World σ) :
    (∀ e, (h.dmGet (NewDMap (ps.ByName (ascii "name"))) (ps.ByName (ascii "key")) s.db).1
        = .error e →
      answers s (handleExGet h w r ps s) =
        [(e, if e = Err.ErrKeyNotFound then StatusNotFound else StatusInternalServerError)])
    ∧ (∀ v, (h.dmGet (NewDMap (ps.ByName (ascii "name"))) (ps.ByName (ascii "key")) s.db).1
        = .ok v →
      answers s (handleExGet h w r ps s) =
        match gobEncode w s.registry v with
        | some e => [(e, StatusInternalServerError)]
        | none => [])
    ∧ (∀ d, ParseDuration h.durationUnits (r.URL.Query.Get (ascii "t")) = .ok d →
      (∀ e, (h.dmLockWithTimeout (NewDMap (ps.ByName (ascii "name")))
          (ps.ByName (ascii "key")) d s.db).1 = some e →
        answers s (handleExLockWithTimeout h w r ps s) =
          [(e, if e = Err.ErrKeyNotFound then StatusNotFound else StatusInternalServerError)])
      ∧ ((h.dmLockWithTimeout (NewDMap (ps.ByName (ascii "name")))
          (ps.ByName (ascii "key")) d s.db).1 = none →
        answers s (handleExLockWithTimeout h w r ps s) = []))
    ∧ (∀ e, (h.dmUnlock (NewDMap (ps.ByName (ascii "name"))) (ps.ByName (ascii "key")) s.db).1
        = some e →
      answers s (handleExUnlock h w r ps s) =
        [(e, if e = Err.ErrNoSuchLock then StatusNotFound else StatusInternalServerError)])
    ∧ ((h.dmUnlock (NewDMap (ps.ByName (ascii "name"))) (ps.ByName (ascii "key")) s.db).1
        = none →
      answers s (handleExUnlock h w r ps s) = [])
    ∧ (StatusNotFound ∈ (answers s (handleExGet h w r ps s)).map Prod.snd ↔
      (h.dmGet (NewDMap (ps.ByName (ascii "name"))) (ps.ByName (ascii "key")) s.db).1
        = .error Err.ErrKeyNotFound)
    ∧ (∀ d, ParseDuration h.durationUnits (r.URL.Query.Get (ascii "t")) = .ok d →
      (StatusNotFound ∈ (answers s (handleExLockWithTimeout h w r ps s)).map Prod.snd ↔
        (h.dmLockWithTimeout (NewDMap (ps.ByName (ascii "name")))
          (ps.ByName (ascii "key")) d s.db).1 = some Err.ErrKeyNotFound))
    ∧ (StatusNotFound ∈ (answers s (handleExUnlock h w r ps s)).map Prod.snd ↔
      (h.dmUnlock (NewDMap (ps.ByName (ascii "name"))) (ps.ByName (ascii "key")) s.db).1
        = some Err.ErrNoSuchLock) := by
  have hne : StatusNotFound ≠ StatusInternalServerError := by decide
  have hA : ∀ e, (h.dmGet (NewDMap (ps.ByName (ascii "name"))) (ps.ByName (ascii "key"))
      s.db).1 = .error e →
      answers s (handleExGet h w r ps s) =
        [(e, if e = Err.ErrKeyNotFound then StatusNotFound
          else StatusInternalServerError)] := by
    intro e he
    unfold answers
    rw [handleExGet_eq, calls_append, he]
    simp
  have hB : ∀ v, (h.dmGet (NewDMap (ps.ByName (ascii "name"))) (ps.ByName (ascii "key"))
      s.db).1 = .ok v →
      answers s (handleExGet h w r ps s) =
        match gobEncode w s.registry v with
        | some e => [(e, StatusInternalServerError)]
        | none => [] := by
    intro v hv
    unfold answers
    rw [handleExGet_eq, calls_append, hv]
    cases henc : gobEncode w s.registry v <;> simp [henc]
  have hC : ∀ d, ParseDuration h.durationUnits (r.URL.Query.Get (ascii "t")) = .ok d →
      (∀ e, (h.dmLockWithTimeout (NewDMap (ps.ByName (ascii "name")))
          (ps.ByName (ascii "key")) d s.db).1 = some e →
        answers s (handleExLockWithTimeout h w r ps s) =
          [(e, if e = Err.ErrKeyNotFound then StatusNotFound else StatusInternalServerError)])
      ∧ ((h.dmLockWithTimeout (NewDMap (ps.ByName (ascii "name")))
          (ps.ByName (ascii "key")) d s.db).1 = none →
        answers s (handleExLockWithTimeout h w r ps s) = []) := by
    intro d hd
    unfold answers
    rw [handleExLockWithTimeout_parsed h w r ps s d hd, calls_append]
    constructor
    · intro e he
      simp [he]
    · intro he
      simp [he]
  have hD : ∀ e, (h.dmUnlock (NewDMap (ps.ByName (ascii "name"))) (ps.ByName (ascii "key"))
      s.db).1 = some e →
      answers s (handleExUnlock h w r ps s) =
        [(e, if e = Err.ErrNoSuchLock then StatusNotFound
          else StatusInternalServerError)] := by
    intro e he
    unfold answers
    rw [handleExUnlock_eq, calls_append, he]
    simp
  have hE : (h.dmUnlock (NewDMap (ps.ByName (ascii "name"))) (ps.ByName (ascii "key"))
      s.db).1 = none → answers s (handleExUnlock h w r ps s) = [] := by
    intro he
    unfold answers
    rw [handleExUnlock_eq, calls_append, he]
    simp
  refine ⟨hA, hB, hC, hD, hE, ?_, ?_, ?_⟩
  · cases hres : (h.dmGet (NewDMap (ps.ByName (ascii "name"))) (ps.ByName (ascii "key"))
      s.db).1 with
    | error e =>
      rw [hA e hres]
      by_cases he : e = Err.ErrKeyNotFound
      · simp [he]
      · simp [he, hne, Ne.symm hne]
    | ok v =>
      rw [hB v hres]
      cases gobEncode w s.registry v <;> simp [hne]
  · intro d hd
    cases hres : (h.dmLockWithTimeout (NewDMap (ps.ByName (ascii "name")))
      (ps.ByName (ascii "key")) d s.db).1 with
    | none => rw [(hC d hd).2 hres]; simp
    | some e =>
      rw [(hC d hd).1 e hres]
      by_cases he : e = Err.ErrKeyNotFound
      · simp [he]
      · simp [he, hne, Ne.symm hne]
  · cases hres : (h.dmUnlock (NewDMap (ps.ByName (ascii "name"))) (ps.ByName (ascii "key"))
      s.db).1 with
    | none => rw [hE hres]; simp
    | some e =>
      rw [hD e hres]
      by_cases he : e = Err.ErrNoSuchLock
      · simp [he]
      · simp [he, hne, Ne.symm hne]

/-- The statuses of the example node for a missing key, a stored key, a held lock, a
free lock, a missing lock and a released lock. -/
theorem handlers_answer_by_error_kind_witness :
    ((demo.dmGet (NewDMap ((demoParams "users" "alice").ByName (ascii "name")))
        ((demoParams "users" "alice").ByName (ascii "key")) demoWorld.db).1
        = .error Err.ErrKeyNotFound
      ∧ answers demoWorld (handleExGet demo demoWriter (demoRequest "" [])
          (demoParams "users" "alice") demoWorld) = [(Err.ErrKeyNotFound, 404)])
    ∧ ((demo.dmGet (NewDMap ((demoParams "users" "alice").ByName (ascii "name")))
        ((demoParams "users" "alice").ByName (ascii "key")) demoStored.db).1
        = .ok ⟨1, ascii "V"⟩
      ∧ answers demoStored (handleExGet demo demoWriter (demoRequest "" [])
          (demoParams "users" "alice") demoStored) = [])
    ∧ (ParseDuration demo.durationUnits ((demoRequest "t=2s" []).URL.Query.Get (ascii "t"))
        = .ok 2000000000
      ∧ (demo.dmLockWithTimeout (NewDMap ((demoParams "users" "alice").ByName (ascii "name")))
          ((demoParams "users" "alice").ByName (ascii "key")) 2000000000 demoLocked.db).1
        = some Err.AlreadyLocked
      ∧ answers demoLocked (handleExLockWithTimeout demo demoWriter (demoRequest "t=2s" [])
          (demoParams "users" "alice") demoLocked) = [(Err.AlreadyLocked, 500)]
      ∧ (demo.dmLockWithTimeout (NewDMap ((demoParams "users" "alice").ByName (ascii "name")))
          ((demoParams "users" "alice").ByName (ascii "key")) 2000000000 demoWorld.db).1
        = none
      ∧ answers demoWorld (handleExLockWithTimeout demo demoWriter (demoRequest "t=2s" [])
          (demoParams "users" "alice") demoWorld) = [])
    ∧ ((demo.dmUnlock (NewDMap ((demoParams "users" "alice").ByName (ascii "name")))
        ((demoParams "users" "alice").ByName (ascii "key")) demoWorld.db).1
        = some Err.ErrNoSuchLock
      ∧ answers demoWorld (handleExUnlock demo demoWriter (demoRequest "" [])
          (demoParams "users" "alice") demoWorld) = [(Err.ErrNoSuchLock, 404)])
    ∧ ((demo.dmUnlock (NewDMap ((demoParams "users" "alice").ByName (ascii "name")))
        ((demoParams "users" "alice").ByName (ascii "key")) demoLocked.db).1 = none
      ∧ answers demoLocked (handleExUnlock demo demoWriter (demoRequest "" [])
          (demoParams "users" "alice") demoLocked) = []) :=
  ⟨⟨by decide,
      (handlers_answer_by_error_kind demo demoWriter (demoRequest "" [])
        (demoParams "users" "alice") demoWorld).1 _ (by decide)⟩,
    ⟨by decide,
      (handlers_answer_by_error_kind demo demoWriter (demoRequest "" [])
        (demoParams "users" "alice") demoStored).2.1 ⟨1, ascii "V"⟩ (by decide)⟩,
    ⟨by decide, by decide,
      ((handlers_answer_by_error_kind demo demoWriter (demoRequest "t=2s" [])
        (demoParams "users" "alice") demoLocked).2.2.1 2000000000 (by decide)).1 _
        (by decide),
      by decide,
      ((handlers_answer_by_error_kind demo demoWriter (demoRequest "t=2s" [])
        (demoParams "users" "alice") demoWorld).2.2.1 2000000000 (by decide)).2
        (by decide)⟩,
    ⟨by decide,
      (handlers_answer_by_error_kind demo demoWriter (demoRequest "" [])
        (demoParams "users" "alice") demoWorld).2.2.2.1 _ (by decide)⟩,
    ⟨by decide,
      (handlers_answer_by_error_kind demo demoWriter (demoRequest "" [])
        (demoParams "users" "alice") demoLocked).2.2.2.2.1 (by decide)⟩⟩

/-- C7 as stated fails: with the timeout `2s`, a lock that is held fails with
`AlreadyLocked` and a lock on the empty key fails with an internal error; both are
answered with the same status. -/
theorem handleExLockWithTimeout_contention_same_status :
    (demo.dmLockWithTimeout (NewDMap (ascii "users")) (ascii "alice") 2000000000
        demoLocked.db).1 = some Err.AlreadyLocked
    ∧ (demo.dmLockWithTimeout (NewDMap (ascii "users")) (ascii "") 2000000000
        demoWorld.db).1 = some (Err.other (ascii "empty key"))
    ∧ (answers demoLocked (handleExLockWithTimeout demo demoWriter (demoRequest "t=2s" [])
        (demoParams "users" "alice") demoLocked)).map Prod.snd = [500]
    ∧ (answers demoWorld (handleExLockWithTimeout demo demoWriter (demoRequest "t=2s" [])
        (demoParams "users" "") demoWorld)).map Prod.snd = [500] := by
  decide

/-- C7, as amended: with a valid timeout, `handleExLockWithTimeout` answers the
contention error `AlreadyLocked` and every other error that is not `ErrKeyNotFound`
with the same status, HTTP 500, so that the two answers differ only in the error
they carry; `ErrKeyNotFound` is the one failure answered with another status,
HTTP 404; without an error nothing is answered.  The lock operation is applied
once, to the database of the request. -/
theorem handleExLockWithTimeout_contention_is_internal (h : Transport σ) (w : ResponseWriter)
    (r : Request) (ps : Params) (s : World σ) (d : Duration)
    (hpar : ParseDuration h.durationUnits (r.URL.Query.Get (ascii "t")) = .ok d) :
    ((h.dmLockWithTimeout (NewDMap (ps.ByName (ascii "name"))) (ps.ByName (ascii "key")) d
        s.db).1 = some Err.AlreadyLocked →
      answers s (handleExLockWithTimeout h w r ps s)
        = [(Err.AlreadyLocked, StatusInternalServerError)])
    ∧ (∀ e, e ≠ Err.ErrKeyNotFound →
      (h.dmLockWithTimeout (NewDMap (ps.ByName (ascii "name"))) (ps.ByName (ascii "key")) d
        s.db).1 = some e →
      answers s (handleExLockWithTimeout h w r ps s) = [(e, StatusInternalServerError)])
    ∧ ((h.dmLockWithTimeout (NewDMap (ps.ByName (ascii "name"))) (ps.ByName (ascii "key")) d
        s.db).1 = some Err.ErrKeyNotFound →
      answers s (handleExLockWithTimeout h w r ps s) = [(Err.ErrKeyNotFound, StatusNotFound)])
    ∧ ((h.dmLockWithTimeout (NewDMap (ps.ByName (ascii "name"))) (ps.ByName (ascii "key")) d
        s.db).1 = none →
      answers s (handleExLockWithTimeout h w r ps s) = [])
    ∧ (handleExLockWithTimeout h w r ps s).db =
      (h.dmLockWithTimeout (NewDMap (ps.ByName (ascii "name"))) (ps.ByName (ascii "key")) d
        s.db).2
    ∧ StatusNotFound ≠ StatusInternalServerError := by
  unfold answers
  rw [handleExLockWithTimeout_parsed h w r ps s d hpar, calls_append]
  refine ⟨?_, ?_, ?_, ?_, rfl, by decide⟩
  · intro he
    simp [he]
  · intro e hne he
    simp [he, hne]
  · intro he
    simp [he]
  · intro he
    simp [he]

/-- On the node that locks stored keys only: a held lock and a lock on the empty key
are both answered with HTTP 500, a lock on a key without a value with HTTP 404. -/
theorem handleExLockWithTimeout_contention_is_internal_witness :
    ParseDuration demoStrict.durationUnits ((demoRequest "t=2s" []).URL.Query.Get (ascii "t"))
      = .ok 2000000000
    ∧ answers demoStoredLocked (handleExLockWithTimeout demoStrict demoWriter
        (demoRequest "t=2s" []) (demoParams "users" "alice") demoStoredLocked)
      = [(Err.AlreadyLocked, StatusInternalServerError)]
    ∧ answers demoStored (handleExLockWithTimeout demoStrict demoWriter
        (demoRequest "t=2s" []) (demoParams "users" "") demoStored)
      = [(Err.other (ascii "empty key"), StatusInternalServerError)]
    ∧ answers demoWorld (handleExLockWithTimeout demoStrict demoWriter
        (demoRequest "t=2s" []) (demoParams "users" "alice") demoWorld)
      = [(Err.ErrKeyNotFound, StatusNotFound)]
    ∧ answers demoStored (handleExLockWithTimeout demoStrict demoWriter
        (demoRequest "t=2s" []) (demoParams "users" "alice") demoStored) = []
    ∧ (handleExLockWithTimeout demoStrict demoWriter (demoRequest "t=2s" [])
        (demoParams "users" "alice") demoStored).db.locks = [(ascii "users", ascii "alice")] :=
  ⟨by decide,
    (handleExLockWithTimeout_contention_is_internal demoStrict demoWriter
      (demoRequest "t=2s" []) (demoParams "users" "alice") demoStoredLocked 2000000000
      (by decide)).1 (by decide),
    (handleExLockWithTimeout_contention_is_internal demoStrict demoWriter
      (demoRequest "t=2s" []) (demoParams "users" "") demoStored 2000000000
      (by decide)).2.1 (Err.other (ascii "empty key")) (by decide) (by decide),
    (handleExLockWithTimeout_contention_is_internal demoStrict demoWriter
      (demoRequest "t=2s" []) (demoParams "users" "alice") demoWorld 2000000000
      (by decide)).2.2.1 (by decide),
    (handleExLockWithTimeout_contention_is_internal demoStrict demoWriter
      (demoRequest "t=2s" []) (demoParams "users" "alice") demoStored 2000000000
      (by decide)).2.2.2.1 (by decide),
    by
      rw [(handleExLockWithTimeout_contention_is_internal demoStrict demoWriter
        (demoRequest "t=2s" []) (demoParams "users" "alice") demoStored 2000000000
        (by decide)).2.2.2.2.1]
      decide⟩

/-- C9 as stated fails: the locally served Put for `users`/`bob` calls
`registerValueType` on the decoded value, and the registry after the request is
what that call made of the registry before it. -/
theorem handleExPut_writes_registry :
    (calls demoWorld (handleExPut demo demoWriter (demoRequest "t=5s" (1 :: ascii "V"))
        (demoParams "users" "bob") demoWorld)).filter Call.isRegisterValueType
      = [Call.registerValueType ⟨1, ascii "V"⟩]
    ∧ (handleExPut demo demoWriter (demoRequest "t=5s" (1 :: ascii "V"))
        (demoParams "users" "bob") demoWorld).registry
      = demo.registerValueType ⟨1, ascii "V"⟩ demoWorld.registry
    ∧ (handleExPut demo demoWriter (demoRequest "t=5s" (1 :: ascii "V"))
        (demoParams "users" "bob") demoWorld).registry ≠ demoWorld.registry := by
  decide

/-- C9, as amended: `handleExGet`, `handleExDelete`, `handleExLockWithTimeout`,
`handleExUnlock` and `handleExDestroy` never write the value codec registry, and
`handleExPut` does not write it when the owner cannot be located, when it
forwards, when the body does not decode or when the timeout does not parse: the
registry after the request is the registry before it.  A locally served Put whose
body decodes to `v` and whose timeout is absent or parses calls
`registerValueType(v)` once, and the registry after the request is what that call
made of the registry before it. -/
theorem handlers_registry_writes (h : Transport σ) (w : ResponseWriter) (r : Request)
    (ps : Params) (s : World σ) :
    ((handleExGet h w r ps s).registry = s.registry
      ∧ (calls s (handleExGet h w r ps s)).filter Call.isRegisterValueType = [])
    ∧ ((handleExDelete h w r ps s).registry = s.registry
      ∧ (calls s (handleExDelete h w r ps s)).filter Call.isRegisterValueType = [])
    ∧ ((handleExLockWithTimeout h w r ps s).registry = s.registry
      ∧ (calls s (handleExLockWithTimeout h w r ps s)).filter Call.isRegisterValueType = [])
    ∧ ((handleExUnlock h w r ps s).registry = s.registry
      ∧ (calls s (handleExUnlock h w r ps s)).filter Call.isRegisterValueType = [])
    ∧ ((handleExDestroy h w r ps s).registry = s.registry
      ∧ (calls s (handleExDestroy h w r ps s)).filter Call.isRegisterValueType = [])
    ∧ (∀ e, h.locateKey (ps.ByName (ascii "name")) (ps.ByName (ascii "key")) s.db
        = .error e →
      (handleExPut h w r ps s).registry = s.registry
      ∧ (calls s (handleExPut h w r ps s)).filter Call.isRegisterValueType = [])
    ∧ (∀ owner hkey, h.locateKey (ps.ByName (ascii "name")) (ps.ByName (ascii "key")) s.db
        = .ok (owner, hkey) → h.hostCmp owner h.this = false →
      (handleExPut h w r ps s).registry = s.registry
      ∧ (calls s (handleExPut h w r ps s)).filter Call.isRegisterValueType = [])
    ∧ (∀ owner hkey, h.locateKey (ps.ByName (ascii "name")) (ps.ByName (ascii "key")) s.db
        = .ok (owner, hkey) → h.hostCmp owner h.this = true →
      (handleExPut h w r ps s).registry =
        (match gobDecode h s.registry r.Body, putTimeout h r with
          | .ok v, .ok _ => h.registerValueType v s.registry
          | _, _ => s.registry)
      ∧ (calls s (handleExPut h w r ps s)).filter Call.isRegisterValueType =
        (match gobDecode h s.registry r.Body, putTimeout h r with
          | .ok v, .ok _ => [Call.registerValueType v]
          | _, _ => [])) := by
  refine ⟨?_, ?_, ?_, ?_, ?_, ?_, ?_, ?_⟩
  · rw [handleExGet_eq, calls_append]
    cases (h.dmGet (NewDMap (ps.ByName (ascii "name"))) (ps.ByName (ascii "key")) s.db).1 with
    | error e => simp [Call.isRegisterValueType]
    | ok v => cases henc : gobEncode w s.registry v <;> simp [Call.isRegisterValueType, henc]
  · rw [handleExDelete_eq, calls_append]
    cases (h.dmDelete (NewDMap (ps.ByName (ascii "name"))) (ps.ByName (ascii "key")) s.db).1
      <;> simp [Call.isRegisterValueType]
  · cases hpar : ParseDuration h.durationUnits (r.URL.Query.Get (ascii "t")) with
    | error e =>
      rw [handleExLockWithTimeout_malformed h w r ps s e hpar, calls_append]
      simp [Call.isRegisterValueType]
    | ok d =>
      rw [handleExLockWithTimeout_parsed h w r ps s d hpar, calls_append]
      cases (h.dmLockWithTimeout (NewDMap (ps.ByName (ascii "name")))
        (ps.ByName (ascii "key")) d s.db).1 <;> simp [Call.isRegisterValueType]
  · rw [handleExUnlock_eq, calls_append]
    cases (h.dmUnlock (NewDMap (ps.ByName (ascii "name"))) (ps.ByName (ascii "key")) s.db).1
      <;> simp [Call.isRegisterValueType]
  · rw [handleExDestroy_eq, calls_append]
    cases (h.dmDestroy (NewDMap (ps.ByName (ascii "name"))) s.db).1
      <;> simp [Call.isRegisterValueType]
  · intro e he
    rw [handleExPut_unlocated h w r ps s e he, calls_append]
    simp [Call.isRegisterValueType]
  · intro owner hkey hloc hcmp
    rw [handleExPut_forward h w r ps s owner hkey hloc hcmp, calls_append]
    cases (h.doRequest MethodPost (putTarget h r (ps.ByName (ascii "name")) owner hkey)
      r.Body s.db).1 <;> simp [Call.isRegisterValueType]
  · intro owner hkey hloc hcmp
    cases hdec : gobDecode h s.registry r.Body with
    | error e =>
      rw [handleExPut_local_undecodable h w r ps s owner hkey e hloc hcmp hdec, calls_append]
      simp [Call.isRegisterValueType]
    | ok v =>
      cases hpar : putTimeout h r with
      | error e =>
        obtain ⟨ht, hp⟩ := putTimeout_error h r e hpar
        rw [handleExPut_local_malformed h w r ps s owner hkey v e hloc hcmp hdec ht hp,
          calls_append]
        simp [Call.isRegisterValueType]
      | ok d =>
        rw [handleExPut_local_stored h w r ps s owner hkey v d hloc hcmp hdec hpar,
          calls_append]
        cases (h.putKeyVal hkey (ps.ByName (ascii "name")) v d s.db).1 <;>
          by_cases ht : r.URL.Query.Get (ascii "t") = [] <;>
            simp [Call.isRegisterValueType, ht]

/-- On the example node a forwarded Put, a Put whose timeout does not parse and a Put
without a map name leave the registry as it was; a stored Put registers the shape
of its value. -/
theorem handlers_registry_writes_witness :
    (demo.locateKey ((demoParams "" "bob").ByName (ascii "name"))
        ((demoParams "" "bob").ByName (ascii "key")) demoWorld.db
        = .error (.other (ascii "no partition"))
      ∧ (handleExPut demo demoWriter (demoRequest "" (1 :: ascii "V"))
          (demoParams "" "bob") demoWorld).registry = demoWorld.registry)
    ∧ (demo.locateKey ((demoParams "users" "alice").ByName (ascii "name"))
        ((demoParams "users" "alice").ByName (ascii "key")) demoWorld.db
        = .ok (demoPeer, 8931799605670079)
      ∧ demo.hostCmp demoPeer demo.this = false
      ∧ (handleExPut demo demoWriter (demoRequest "" (1 :: ascii "V"))
          (demoParams "users" "alice") demoWorld).registry = demoWorld.registry)
    ∧ (demo.locateKey ((demoParams "users" "bob").ByName (ascii "name"))
        ((demoParams "users" "bob").ByName (ascii "key")) demoWorld.db
        = .ok (demoThis, 9294276385716)
      ∧ demo.hostCmp demoThis demo.this = true
      ∧ (handleExPut demo demoWriter (demoRequest "t=soon" (1 :: ascii "V"))
          (demoParams "users" "bob") demoWorld).registry = [1, 2]
      ∧ (handleExPut demo demoWriter (demoRequest "t=5s" (1 :: ascii "V"))
          (demoParams "users" "bob") demoWorld).registry = [1, 2, 1]) :=
  ⟨⟨by decide,
      ((handlers_registry_writes demo demoWriter (demoRequest "" (1 :: ascii "V"))
        (demoParams "" "bob") demoWorld).2.2.2.2.2.1 (.other (ascii "no partition"))
        (by decide)).1⟩,
    ⟨by decide, by decide,
      ((handlers_registry_writes demo demoWriter (demoRequest "" (1 :: ascii "V"))
        (demoParams "users" "alice") demoWorld).2.2.2.2.2.2.1 demoPeer 8931799605670079
        (by decide) (by decide)).1⟩,
    ⟨by decide, by decide,
      by
        rw [((handlers_registry_writes demo demoWriter (demoRequest "t=soon" (1 :: ascii "V"))
          (demoParams "users" "bob") demoWorld).2.2.2.2.2.2.2 demoThis 9294276385716
          (by decide) (by decide)).1]
        decide,
      by
        rw [((handlers_registry_writes demo demoWriter (demoRequest "t=5s" (1 :: ascii "V"))
          (demoParams "users" "bob") demoWorld).2.2.2.2.2.2.2 demoThis 9294276385716
          (by decide) (by decide)).1]
        decide⟩⟩

/-- C10: the forwarded path has the three segments `put`, map name and printed hash
key when the name is a plain segment (non-empty, without `/`, neither `.` nor
`..`) and the hash key prints as decimal digits; for the name `..` cleaning
removes `put` and the name, for the name `.` it removes the name. -/
theorem putTarget_path_segments (h : Transport σ) (r : Request) (name : GoString)
    (owner : Host) (hkey : Nat)
    (hne : name ≠ []) (hs : slash ∉ name) (hd : name ≠ [dot]) (hdd : name ≠ [dot, dot])
    (hp : h.printHKey hkey ≠ [])
    (hdig : ∀ b ∈ h.printHKey hkey, 48 ≤ b.val ∧ b.val ≤ 57) :
    (putTarget h r name owner hkey).Path = ascii "/put/" ++ name ++ [slash] ++ h.printHKey hkey
    ∧ (putTarget h r [dot, dot] owner hkey).Path = slash :: h.printHKey hkey
    ∧ (putTarget h r [dot] owner hkey).Path = ascii "/put/" ++ h.printHKey hkey := by
  refine ⟨?_, ?_, ?_⟩
  · rw [(putTarget_fields h r name owner hkey).2.2, Join_put _ _ hne]
    exact Clean_put_seg name _ hne hs hd hdd hp hdig
  · rw [(putTarget_fields h r _ owner hkey).2.2, Join_put _ _ (by simp)]
    exact Clean_put_dotdot _ hp hdig
  · rw [(putTarget_fields h r _ owner hkey).2.2, Join_put _ _ (by simp)]
    exact Clean_put_dot _ hp hdig

set_option maxRecDepth 100000 in
/-- The forwarded paths of the example node for the map names `users`, `..` and `.`. -/
theorem putTarget_path_segments_witness :
    (ascii "users" ≠ [] ∧ slash ∉ ascii "users" ∧ ascii "users" ≠ [dot]
      ∧ ascii "users" ≠ [dot, dot] ∧ demo.printHKey 8931799605670079 ≠ []
      ∧ ∀ b ∈ demo.printHKey 8931799605670079, 48 ≤ b.val ∧ b.val ≤ 57)
    ∧ (putTarget demo (demoRequest "t=5s" []) (ascii "users") demoPeer 8931799605670079).Path
      = ascii "/put/" ++ ascii "users" ++ [slash] ++ demo.printHKey 8931799605670079
    ∧ (putTarget demo (demoRequest "t=5s" []) [dot, dot] demoPeer 8931799605670079).Path
      = slash :: demo.printHKey 8931799605670079
    ∧ (putTarget demo (demoRequest "t=5s" []) [dot] demoPeer 8931799605670079).Path
      = ascii "/put/" ++ demo.printHKey 8931799605670079 :=
  ⟨⟨by decide, by decide, by decide, by decide, by decide, by decide⟩,
    putTarget_path_segments demo (demoRequest "t=5s" []) (ascii "users") demoPeer
      8931799605670079 (by decide) (by decide) (by decide) (by decide) (by decide)
      (by decide)⟩

end Olricdb
